import Mathlib

namespace Overcast

/-!
Shallow embedding of the traffic-infrastructure core of the overcast repository:
the bounded spatial occupancy grid (src/src/grid/grid.rs), grid cells and areas
(src/src/grid/grid_cell.rs, src/src/grid/grid_area.rs), compass directions
(src/src/grid/orientation.rs), the road-network graph records and repair passes
(src/src/types/*.rs, src/src/graph/road_graph.rs), the road tool split logic
(src/src/tools/road_tool.rs), and the path finder / vehicle systems
(src/src/types/vehicle.rs).

Machine integers (i32) are embedded as Int; the values involved stay far from
either i32 bound in every statement proved here.  Bevy `Entity` handles are
embedded as Nat.  Bevy `HashSet`/`HashMap` fields are embedded as lists with
insert-if-absent / first-match-lookup semantics; their arbitrary iteration
order surfaces as explicit list order or as oracle parameters.
-/

abbrev Entity := Nat

/-- Integer 2-vector (bevy IVec2), restricted to the two fields the grid uses. -/
structure IVec2 where
  x : Int
  y : Int
deriving DecidableEq, Repr

def IVec2.add (a b : IVec2) : IVec2 := ⟨a.x + b.x, a.y + b.y⟩

instance : Add IVec2 := ⟨IVec2.add⟩

/-- A grid cell, src/src/grid/grid_cell.rs (the source field is spelled
`position` in grid_cell.rs and accessed as `pos` by grid_area.rs/road_tool.rs;
both spellings denote the same IVec2 payload). -/
structure GridCell where
  pos : IVec2
deriving DecidableEq, Repr

/-- GridCell::new. -/
def GridCell.new (x y : Int) : GridCell := ⟨⟨x, y⟩⟩

/-- Inclusive rectangle [min, max] of cells, src/src/grid/grid_area.rs. -/
structure GridArea where
  min : GridCell
  max : GridCell
deriving DecidableEq, Repr

/-- GridArea::new. -/
def GridArea.new (min max : GridCell) : GridArea := ⟨min, max⟩

/-- The inclusive integer range [lo, hi] as a list, in increasing order. -/
def intRange (lo hi : Int) : List Int :=
  (List.range (hi + 1 - lo).toNat).map fun (n : Nat) => lo + (n : Int)

/-- The cells of an area in the order produced by GridArea::iter (row-major:
y from min.y to max.y, x from min.x to max.x within each row). -/
def GridArea.cells (a : GridArea) : List GridCell :=
  (intRange a.min.pos.y a.max.pos.y).flatMap fun y =>
    (intRange a.min.pos.x a.max.pos.x).map fun x => GridCell.new x y

/-- GRID_RADIUS, src/src/grid/grid.rs. -/
def GRID_RADIUS : Int := 100

/-- GRID_DIAMETER, src/src/grid/grid.rs. -/
def GRID_DIAMETER : Int := GRID_RADIUS * 2

/-- The spatial occupancy grid, src/src/grid/grid.rs.  The backing
`Vec<Option<Entity>>` is embedded as a total function from the flat index
produced by Grid::coordinate; the `HashMap<Entity, Vec<GridCell>>` reverse map
is embedded as a partial function. -/
structure Grid where
  entities : Int → Option Entity
  addresses : Entity → Option (List GridCell)

/-- Grid::new: empty occupancy, empty reverse map, center (GRID_RADIUS, GRID_RADIUS). -/
def Grid.new : Grid := ⟨fun _ => none, fun _ => none⟩

/-- The grid center stored by Grid::new (always (GRID_RADIUS, GRID_RADIUS)). -/
def gridCenter : IVec2 := ⟨GRID_RADIUS, GRID_RADIUS⟩

/-- Grid::coordinate: flat index of a center-offset coordinate. -/
def coordinate (offset : IVec2) : Int := offset.y * GRID_DIAMETER + offset.x

/-- The bounds error type of src/src/grid/grid.rs. -/
structure GridBoundsError where
deriving DecidableEq, Repr

/-- The bounds check performed by Grid::entity_at on the center-offset
coordinate of a cell. -/
abbrev offsetInBounds (offset : IVec2) : Prop :=
  0 ≤ offset.x ∧ offset.x < GRID_DIAMETER ∧ 0 ≤ offset.y ∧ offset.y < GRID_DIAMETER

/-- Grid::entity_at: bounds-checked read of the occupant slot of a cell. -/
def Grid.entity_at (g : Grid) (cell : GridCell) : Except GridBoundsError (Option Entity) :=
  let offset := gridCenter + cell.pos
  if offsetInBounds offset then
    Except.ok (g.entities (coordinate offset))
  else
    Except.error ⟨⟩

/-- Grid::is_occupied. -/
def Grid.is_occupied (g : Grid) (cell : GridCell) : Except GridBoundsError Bool :=
  match g.entity_at cell with
  | Except.ok slot => Except.ok slot.isSome
  | Except.error e => Except.error e

/-- The loop body of Grid::single_entity_in_area, with `output` the running
unique-occupant accumulator. -/
def singleEntityLoop (g : Grid) : List GridCell → Option Entity → Option Entity
  | [], output => output
  | cell :: rest, output =>
    match g.entity_at cell with
    | Except.error _ => none
    | Except.ok none => none
    | Except.ok (some entity) =>
      match output with
      | some unique => if unique ≠ entity then none else singleEntityLoop g rest (some unique)
      | none => singleEntityLoop g rest (some entity)

/-- Grid::single_entity_in_area. -/
def Grid.single_entity_in_area (g : Grid) (area : GridArea) : Option Entity :=
  singleEntityLoop g area.cells none

/-- The cell-write loop shared by Grid::mark_area_occupied (value `some entity`)
and Grid::erase (value `none`): store `v` at the flat coordinate of every cell
of the list. -/
def writeCells (cells : List GridCell) (v : Option Entity) (f : Int → Option Entity) :
    Int → Option Entity :=
  cells.foldl (fun f cell => fun i => if i = coordinate (gridCenter + cell.pos) then v else f i) f

/-- Grid::mark_area_occupied: write the handle into every cell of the area
(unchecked, as in the source), then extend the entity's reverse list. -/
def Grid.mark_area_occupied (g : Grid) (area : GridArea) (entity : Entity) : Grid :=
  { entities := writeCells area.cells (some entity) g.entities,
    addresses := fun e =>
      if e = entity then some (((g.addresses entity).getD []) ++ area.cells) else g.addresses e }

/-- Grid::erase: clear every cell in the entity's reverse list, then remove the
reverse-list entry; no-op when the entity has no entry. -/
def Grid.erase (g : Grid) (entity : Entity) : Grid :=
  match g.addresses entity with
  | none => g
  | some address_list =>
    { entities := writeCells address_list none g.entities,
      addresses := fun e => if e = entity then none else g.addresses e }

/-! Orientations and compass directions, src/src/grid/orientation.rs. -/

/-- GAxis: the two perpendicular road orientations. -/
inductive GAxis
  | X
  | Z
deriving DecidableEq, Repr

/-- GDir: the four compass directions. -/
inductive GDir
  | North
  | South
  | West
  | East
deriving DecidableEq, Repr

/-- GDir::inverse. -/
def GDir.inverse : GDir → GDir
  | GDir.North => GDir.South
  | GDir.South => GDir.North
  | GDir.West => GDir.East
  | GDir.East => GDir.West

/-- GDir::index: slot index into an Intersection's four road slots.  The Rust
usize is bounded by the array length 4, embedded as Fin 4. -/
def GDir.index : GDir → Fin 4
  | GDir.North => 0
  | GDir.South => 1
  | GDir.West => 2
  | GDir.East => 3

/-- GDir::binary_index: slot index into a RoadSegment's two end slots, Fin 2
for the array bound. -/
def GDir.binary_index : GDir → Fin 2
  | GDir.North => 0
  | GDir.South => 1
  | GDir.West => 0
  | GDir.East => 1

/-! Adjacent areas, src/src/grid/grid_area.rs. -/

/-- GridArea::adjacent_bottom. -/
def GridArea.adjacent_bottom (a : GridArea) : GridArea :=
  ⟨GridCell.new a.min.pos.x (a.min.pos.y - 1), GridCell.new a.max.pos.x (a.min.pos.y - 1)⟩

/-- GridArea::adjacent_top. -/
def GridArea.adjacent_top (a : GridArea) : GridArea :=
  ⟨GridCell.new a.min.pos.x (a.max.pos.y + 1), GridCell.new a.max.pos.x (a.max.pos.y + 1)⟩

/-- GridArea::adjacent_left. -/
def GridArea.adjacent_left (a : GridArea) : GridArea :=
  ⟨GridCell.new (a.min.pos.x - 1) a.min.pos.y, GridCell.new (a.min.pos.x - 1) a.max.pos.y⟩

/-- GridArea::adjacent_right. -/
def GridArea.adjacent_right (a : GridArea) : GridArea :=
  ⟨GridCell.new (a.max.pos.x + 1) a.min.pos.y, GridCell.new (a.max.pos.x + 1) a.max.pos.y⟩

/-- The adjacent area on a given side (the association used by
GridAdjacentAreasIterator). -/
def GridArea.adjacent_area (a : GridArea) : GDir → GridArea
  | GDir.North => a.adjacent_top
  | GDir.South => a.adjacent_bottom
  | GDir.West => a.adjacent_left
  | GDir.East => a.adjacent_right

/-- GridArea::adjacent_areas: the four one-cell-deep side strips with their
directions, in iterator order North, South, West, East. -/
def GridArea.adjacent_areas (a : GridArea) : List (GridArea × GDir) :=
  [GDir.North, GDir.South, GDir.West, GDir.East].map fun g => (a.adjacent_area g, g)

/-! Infrastructure records, src/src/types/road_segment.rs,
src/src/types/intersection.rs, src/src/types/building.rs.  The Rust arrays
`[Option<Entity>; 2]` / `[Option<Entity>; 4]` are embedded as functions from
Fin 2 / Fin 4; HashSet fields are embedded as lists. -/

/-- RoadSegment record.  The `observers` set is modelled from the spec: the
spec's data model gives vehicles observer registration on infrastructure
records and src/src/types/vehicle.rs inserts into `segment.observers`, but the
field declaration is absent from src/src/types/road_segment.rs. -/
structure RoadSegment where
  orientation : GAxis
  area : GridArea
  ends : Fin 2 → Option Entity
  dests : List Entity
  observers : List Entity

/-- RoadSegment::new. -/
def RoadSegment.new (area : GridArea) (orientation : GAxis) : RoadSegment :=
  ⟨orientation, area, fun _ => none, [], []⟩

/-- Intersection record (src/src/types/intersection.rs declares area, roads,
observers). -/
structure Intersection where
  area : GridArea
  roads : Fin 4 → Option Entity
  observers : List Entity

/-- Intersection::new. -/
def Intersection.new (area : GridArea) : Intersection :=
  ⟨area, fun _ => none, []⟩

/-- Building record.  The `observers` set is modelled from the spec: the spec's
data model lists "a set of observer Vehicles" on Building and
src/src/types/vehicle.rs inserts into `building.observers`, but the field
declaration is absent from src/src/types/building.rs. -/
structure Building where
  area : GridArea
  roads : List Entity
  observers : List Entity

/-- Building::new. -/
def Building.new (area : GridArea) : Building :=
  ⟨area, [], []⟩

/-- The relevant slice of the bevy ECS world: the three component tables the
graph-repair, pathfinding and vehicle systems query. -/
structure World where
  buildings : Entity → Option Building
  segments : Entity → Option RoadSegment
  inters : Entity → Option Intersection

def World.setBuilding (w : World) (e : Entity) (b : Building) : World :=
  { w with buildings := fun e2 => if e2 = e then some b else w.buildings e2 }

def World.setSegment (w : World) (e : Entity) (s : RoadSegment) : World :=
  { w with segments := fun e2 => if e2 = e then some s else w.segments e2 }

def World.setInter (w : World) (e : Entity) (i : Intersection) : World :=
  { w with inters := fun e2 => if e2 = e then some i else w.inters e2 }

/-- HashSet::insert on a list-modelled set. -/
def insertSet (x : Entity) (l : List Entity) : List Entity :=
  if x ∈ l then l else x :: l

/-- Pointwise array write, for the Rust `arr[i] = v` on the Fin-function
embedding of `[Option<Entity>; n]`. -/
def setIdx {n : Nat} (f : Fin n → Option Entity) (i : Fin n) (v : Option Entity) :
    Fin n → Option Entity :=
  fun j => if j = i then v else f j

/-- The two end slots of a segment in array-iteration order. -/
def RoadSegment.endsList (s : RoadSegment) : List (Option Entity) :=
  [s.ends 0, s.ends 1]

/-- The four road slots of an intersection in array-iteration order. -/
def Intersection.roadsList (i : Intersection) : List (Option Entity) :=
  [i.roads 0, i.roads 1, i.roads 2, i.roads 3]

/-! The graph-repair passes, src/src/graph/road_graph.rs. -/

/-- The per-cell body of the building scan inside one side iteration of
add_roads_to_graph: a cell holding a Building links segment.dests and
building.roads bidirectionally. -/
def addRoadBuildingStep (grid : Grid) (entity : Entity) (wa : World) (cell : GridCell) : World :=
  match grid.entity_at cell with
  | Except.ok (some adj) =>
    match wa.buildings adj with
    | some building =>
      match wa.segments entity with
      | some segment =>
        (wa.setSegment entity
            { segment with dests := insertSet adj segment.dests }).setBuilding adj
          { building with roads := insertSet entity building.roads }
      | none => wa
    | none => wa
  | _ => wa

/-- The building scan over one adjacent strip of add_roads_to_graph. -/
def addRoadBuildingScan (grid : Grid) (entity : Entity) (adj_area : GridArea) (w : World) :
    World :=
  adj_area.cells.foldl (addRoadBuildingStep grid entity) w

/-- The intersection-link part of one side iteration of add_roads_to_graph:
when the full adjacent strip is a single entity carrying an Intersection, set
the segment's end slot for the side and the intersection's inverse-direction
road slot. -/
def addRoadSideLink (grid : Grid) (entity : Entity) (adj_area : GridArea) (gdir : GDir)
    (w : World) : World :=
  match grid.single_entity_in_area adj_area with
  | some adj =>
    match w.inters adj with
    | some inter =>
      match w.segments entity with
      | some segment =>
        (w.setSegment entity
            { segment with ends := setIdx segment.ends gdir.binary_index (some adj) }).setInter
          adj { inter with roads := setIdx inter.roads gdir.inverse.index (some entity) }
      | none => w
    | none => w
  | none => w

/-- One side iteration of the add_roads_to_graph loop: link to an intersection
fully occupying the adjacent strip, then scan the strip cells for buildings. -/
def addRoadSide (grid : Grid) (entity : Entity) (w : World) (side : GridArea × GDir) : World :=
  addRoadBuildingScan grid entity side.1 (addRoadSideLink grid entity side.1 side.2 w)

/-- Processing of one OnRoadSpawned event by add_roads_to_graph. -/
def add_road_event (grid : Grid) (w : World) (entity : Entity) : World :=
  match w.segments entity with
  | some segment => segment.area.adjacent_areas.foldl (addRoadSide grid entity) w
  | none => w

/-- add_roads_to_graph over a batch of OnRoadSpawned events. -/
def add_roads_to_graph (grid : Grid) (events : List Entity) (w : World) : World :=
  events.foldl (add_road_event grid) w

/-- One side iteration of the add_intersections_to_graph loop. -/
def addIntersectionSide (grid : Grid) (entity : Entity) (w : World) (side : GridArea × GDir) :
    World :=
  match grid.single_entity_in_area side.1 with
  | some adj =>
    match w.segments adj with
    | some segment =>
      match w.inters entity with
      | some inter =>
        (w.setInter entity
            { inter with roads := setIdx inter.roads side.2.index (some adj) }).setSegment adj
          { segment with ends := setIdx segment.ends side.2.inverse.binary_index (some entity) }
      | none => w
    | none => w
  | none => w

/-- Processing of one OnIntersectionSpawned event by add_intersections_to_graph. -/
def add_intersection_event (grid : Grid) (w : World) (entity : Entity) : World :=
  match w.inters entity with
  | some inter => inter.area.adjacent_areas.foldl (addIntersectionSide grid entity) w
  | none => w

/-- Clearing write of remove_roads_from_graph /
remove_intersections_from_graph: reset every slot equal to `some entity` to
none. -/
def clearVal {n : Nat} (f : Fin n → Option Entity) (entity : Entity) : Fin n → Option Entity :=
  fun j => if f j = some entity then none else f j

/-- The per-end-slot body of remove_roads_from_graph: clear every roads slot of
the referenced intersection that holds the destroyed segment. -/
def removeRoadEndsStep (entity : Entity) (wa : World) (slot : Option Entity) : World :=
  match slot with
  | some e2 =>
    match wa.inters e2 with
    | some inter => wa.setInter e2 { inter with roads := clearVal inter.roads entity }
    | none => wa
  | none => wa

/-- The per-destination body of remove_roads_from_graph: remove the destroyed
segment from the building's road set. -/
def removeRoadDestsStep (entity : Entity) (wa : World) (dest : Entity) : World :=
  match wa.buildings dest with
  | some building =>
    wa.setBuilding dest { building with roads := building.roads.filter (fun r => r != entity) }
  | none => wa

/-- Processing of one OnRoadDestroyed event by remove_roads_from_graph. -/
def remove_road_event (w : World) (entity : Entity) : World :=
  match w.segments entity with
  | none => w
  | some segment =>
    segment.dests.foldl (removeRoadDestsStep entity)
      (segment.endsList.foldl (removeRoadEndsStep entity) w)

/-- The per-road-slot body of remove_intersections_from_graph: clear every end
slot of the referenced segment that holds the destroyed intersection. -/
def removeInterRoadsStep (entity : Entity) (wa : World) (slot : Option Entity) : World :=
  match slot with
  | some road =>
    match wa.segments road with
    | some segment => wa.setSegment road { segment with ends := clearVal segment.ends entity }
    | none => wa
  | none => wa

/-- Processing of one OnIntersectionDestroyed event by
remove_intersections_from_graph. -/
def remove_intersection_event (w : World) (entity : Entity) : World :=
  match w.inters entity with
  | none => w
  | some inter => inter.roadsList.foldl (removeInterRoadsStep entity) w

/-- The per-road body of remove_buildings_from_graph: remove the destroyed
building from the segment's destination set. -/
def removeBuildingRoadsStep (entity : Entity) (wa : World) (road : Entity) : World :=
  match wa.segments road with
  | some segment =>
    wa.setSegment road { segment with dests := segment.dests.filter (fun d => d != entity) }
  | none => wa

/-- Processing of one OnBuildingDestroyed event by remove_buildings_from_graph. -/
def remove_building_event (w : World) (entity : Entity) : World :=
  match w.buildings entity with
  | none => w
  | some building => building.roads.foldl (removeBuildingRoadsStep entity) w

/-! Concrete scenario: a 4-cell-wide intersection (entity 20) with two parallel
2-cell-wide Z-oriented road segments (entities 21, 22) attached side by side to
its south edge.  Both spawn events link end slot 0 of their segment to the
intersection, and both write the intersection's south roads slot, the second
write overwriting the first. -/

def areaI_c2 : GridArea := GridArea.new (GridCell.new 0 4) (GridCell.new 3 5)

def areaA_c2 : GridArea := GridArea.new (GridCell.new 0 0) (GridCell.new 1 3)

def areaB_c2 : GridArea := GridArea.new (GridCell.new 2 0) (GridCell.new 3 3)

def grid_c2 : Grid :=
  ((Grid.new.mark_area_occupied areaI_c2 20).mark_area_occupied areaA_c2 21).mark_area_occupied
    areaB_c2 22

def world_c2_init : World :=
  { buildings := fun _ => none,
    segments := fun e =>
      if e = 21 then some (RoadSegment.new areaA_c2 GAxis.Z)
      else if e = 22 then some (RoadSegment.new areaB_c2 GAxis.Z)
      else none,
    inters := fun e => if e = 20 then some (Intersection.new areaI_c2) else none }

def world_c2 : World := add_roads_to_graph grid_c2 [21, 22] world_c2_init

/-! Concrete scenario: a Z-oriented segment (entity 5) whose north strip is an
intersection (entity 10) and whose west strip is another intersection
(entity 11).  The spawn event links north first (ends[0] := 10, intersection
10's south slot := 5) and then the lateral west adjacency overwrites ends[0]
with 11 — leaving intersection 10 pointing at segment 5 while segment 5 no
longer points back. -/

def areaI1_c3 : GridArea := GridArea.new (GridCell.new 0 4) (GridCell.new 1 5)

def areaI2_c3 : GridArea := GridArea.new (GridCell.new (-2) 2) (GridCell.new (-1) 3)

def areaR_c3 : GridArea := GridArea.new (GridCell.new 0 2) (GridCell.new 1 3)

def grid_c3 : Grid :=
  ((Grid.new.mark_area_occupied areaI1_c3 10).mark_area_occupied areaI2_c3 11).mark_area_occupied
    areaR_c3 5

def world_c3_init : World :=
  { buildings := fun _ => none,
    segments := fun e => if e = 5 then some (RoadSegment.new areaR_c3 GAxis.Z) else none,
    inters := fun e =>
      if e = 10 then some (Intersection.new areaI1_c3)
      else if e = 11 then some (Intersection.new areaI2_c3)
      else none }

def world_c3_mid : World := add_road_event grid_c3 world_c3_init 5

def world_c3 : World := remove_road_event world_c3_mid 5

/-- A small world with one segment (5) and one intersection (10) holding
reciprocal links, used to witness the removal theorem. -/
def w_c3wit : World :=
  { buildings := fun _ => none,
    segments := fun e =>
      if e = 5 then
        some ⟨GAxis.Z, areaR_c3, fun j => if j = 0 then some 10 else none, [], []⟩
      else none,
    inters := fun e =>
      if e = 10 then some ⟨areaI1_c3, fun j => if j = 1 then some 5 else none, []⟩ else none }

/-- The identifying shape of an optional segment record: everything except its
destination and observer sets. -/
def segShape (o : Option RoadSegment) : Option (GAxis × GridArea × (Fin 2 → Option Entity)) :=
  o.map fun s => (s.orientation, s.area, s.ends)

/-- Invariant carried across the side iterations of one OnRoadSpawned event:
every end slot of the spawned segment that holds an intersection was linked by
one of the processed sides, with the reciprocal road slot of that intersection
pointing back at the segment. -/
def roadLinkInv (grid : Grid) (entity : Entity) (area0 : GridArea) (processed : List GDir)
    (w' : World) : Prop :=
  ∀ (i : Fin 2) (n : Entity) (seg2 : RoadSegment),
    w'.segments entity = some seg2 → seg2.ends i = some n →
    ∃ g ∈ processed, g.binary_index = i ∧
      grid.single_entity_in_area (area0.adjacent_area g) = some n ∧
      ∃ inter2, w'.inters n = some inter2 ∧ inter2.roads g.inverse.index = some entity

/-! The road tool split logic, src/src/tools/road_tool.rs. -/

/-- RequestRoad event payload (src/src/tools/road_events.rs). -/
structure RequestRoad where
  area : GridArea
  orientation : GAxis

/-- RequestIntersection event payload (src/src/tools/road_events.rs). -/
structure RequestIntersection where
  area : GridArea

/-- The replacement-road requests emitted by split_roads for one
RequestRoadSplit: the portion of the segment before the split area and the
portion after it, each sent only when nonempty. -/
def split_road_requests (segment : RoadSegment) (split_area : GridArea) : List RequestRoad :=
  match segment.orientation with
  | GAxis.Z =>
    (if segment.area.min.pos.y < split_area.min.pos.y then
      [⟨GridArea.new segment.area.min
          (GridCell.new segment.area.max.pos.x split_area.adjacent_bottom.min.pos.y),
        segment.orientation⟩]
     else []) ++
    (if split_area.max.pos.y < segment.area.max.pos.y then
      [⟨GridArea.new (GridCell.new segment.area.min.pos.x split_area.adjacent_top.max.pos.y)
          segment.area.max,
        segment.orientation⟩]
     else [])
  | GAxis.X =>
    (if segment.area.min.pos.x < split_area.min.pos.x then
      [⟨GridArea.new segment.area.min
          (GridCell.new split_area.adjacent_left.min.pos.x segment.area.max.pos.y),
        segment.orientation⟩]
     else []) ++
    (if split_area.max.pos.x < segment.area.max.pos.x then
      [⟨GridArea.new (GridCell.new split_area.adjacent_right.max.pos.x segment.area.min.pos.y)
          segment.area.max,
        segment.orientation⟩]
     else [])

/-- Processing of one RequestRoadSplit event by split_roads: the emitted
RequestRoad events and the emitted OnRoadDestroyed events. -/
def split_road_event (w : World) (entity : Entity) (split_area : GridArea) :
    List RequestRoad × List Entity :=
  match w.segments entity with
  | some segment => (split_road_requests segment split_area, [entity])
  | none => ([], [])

/-- The Intersection records created by spawn_intersections for a batch of
RequestIntersection events: one Intersection::new per request. -/
def spawn_intersections (reqs : List RequestIntersection) : List Intersection :=
  reqs.map fun r => Intersection.new r.area

/-- A world with a single 2x6 Z-oriented segment (entity 7), for the split
witness. -/
def w_c6wit : World :=
  { buildings := fun _ => none,
    segments := fun e =>
      if e = 7 then
        some (RoadSegment.new (GridArea.new (GridCell.new 0 0) (GridCell.new 1 5)) GAxis.Z)
      else none,
    inters := fun _ => none }

/-! Segment geometry and the turn-lane rule, src/src/types/road_segment.rs and
src/src/types/vehicle.rs.  The f32 centers are embedded as exact rationals:
for grid coordinates of this size the float arithmetic involved is exact. -/

/-- The x coordinate of GridArea::center: midpoint of min.min_corner().x and
max.max_corner().x. -/
def GridArea.center_x (a : GridArea) : ℚ :=
  ((a.min.pos.x : ℚ) + ((a.max.pos.x : ℚ) + 1)) / 2

/-- The z coordinate of GridArea::center (grid y axis). -/
def GridArea.center_z (a : GridArea) : ℚ :=
  ((a.min.pos.y : ℚ) + ((a.max.pos.y : ℚ) + 1)) / 2

/-- RoadSegment::drive_width: the cell dimension across the driving
direction. -/
def RoadSegment.drive_width (s : RoadSegment) : Int :=
  match s.orientation with
  | GAxis.Z => s.area.max.pos.x - s.area.min.pos.x + 1
  | GAxis.X => s.area.max.pos.y - s.area.min.pos.y + 1

/-- RoadSegment::num_lanes: drive_width / 2 (Rust i32 division truncates
toward zero, matching Int division here on the nonnegative widths that
occur). -/
def RoadSegment.num_lanes (s : RoadSegment) : Int := s.drive_width / 2

/-- Rust i32::clamp(lo, hi) for lo ≤ hi. -/
def clampInt (x lo hi : Int) : Int := min (max x lo) hi

/-- get_lane_for_turn, src/src/types/vehicle.rs lines 171-199. -/
def get_lane_for_turn (curr next clamp : RoadSegment) (prev : Int) : Int :=
  let z_less := next.area.center_z < curr.area.center_z
  let x_less := next.area.center_x < curr.area.center_x
  if curr.orientation = next.orientation then
    clampInt prev 0 (max (clamp.num_lanes - 2) 0)
  else if next.orientation = GAxis.X then
    if z_less then (if x_less then clamp.num_lanes - 1 else 0)
    else (if x_less then 0 else clamp.num_lanes - 1)
  else
    if x_less then (if z_less then 0 else clamp.num_lanes - 1)
    else (if z_less then clamp.num_lanes - 1 else 0)

/-! The path finder of spawn_vehicle, src/src/types/vehicle.rs lines 451-530.
The rand shuffles of the two end slots and of the four intersection road slots
are modelled by oracle parameters `eo`/`ro` giving, per loop step (indexed by
the remaining fuel), the order in which the slot indices are visited; the
arbitrary HashSet iteration order of building.roads is the list order.  The
unbounded Rust loop is modelled with explicit fuel; fuel exhaustion returns
none (the soundness statements are unaffected, and concrete runs use ample
fuel). -/

/-- The frontier/parent-map push step for the two end slots of a segment
(the `choices = shuffle [0,1]` loop). -/
def segPushStep (w : World) (curr : Entity) (edge : RoadSegment) (visited1 : List Entity)
    (st : List Entity × List (Entity × Entity)) (c : Fin 2) :
    List Entity × List (Entity × Entity) :=
  match edge.ends c with
  | some ep =>
    match w.inters ep with
    | some _ => if ep ∈ visited1 then st else (ep :: st.1, (ep, curr) :: st.2)
    | none => st
  | none => st

/-- The frontier/parent-map push step for the four road slots of an
intersection (the shuffled `node.roads` loop). -/
def interPushStep (w : World) (curr : Entity) (node : Intersection) (visited1 : List Entity)
    (st : List Entity × List (Entity × Entity)) (c : Fin 4) :
    List Entity × List (Entity × Entity) :=
  match node.roads c with
  | some road => if road ∈ visited1 then st else (road :: st.1, (road, curr) :: st.2)
  | none => st

/-- The randomized depth-first search loop of spawn_vehicle.  The frontier is
a stack with its top at the list head (Vec::pop pops the back); `visited` is
the visited set; `pm` the parent map (child, parent), newest entry first so
lookup sees the latest insert, as with HashMap::insert.  Returns the parent
map when the destination building is popped. -/
def searchLoop (w : World) (eo : Nat → List (Fin 2)) (ro : Nat → List (Fin 4)) (end_ : Entity) :
    Nat → List Entity → List Entity → List (Entity × Entity) → Option (List (Entity × Entity))
  | 0, _, _, _ => none
  | Nat.succ fuel, frontier, visited, pm =>
    match frontier with
    | [] => none
    | curr :: rest =>
      let visited1 := insertSet curr visited
      match w.buildings curr with
      | some dest =>
        if curr = end_ then some pm
        else
          match dest.roads with
          | [] => searchLoop w eo ro end_ fuel rest visited1 pm
          | start_road :: _ =>
            searchLoop w eo ro end_ fuel (start_road :: rest) visited1 ((start_road, curr) :: pm)
      | none =>
        match w.segments curr with
        | some edge =>
          if end_ ∈ edge.dests then
            searchLoop w eo ro end_ fuel (end_ :: rest) visited1 ((end_, curr) :: pm)
          else
            searchLoop w eo ro end_ fuel
              ((eo fuel).foldl (segPushStep w curr edge visited1) (rest, pm)).1 visited1
              ((eo fuel).foldl (segPushStep w curr edge visited1) (rest, pm)).2
        | none =>
          match w.inters curr with
          | some node =>
            searchLoop w eo ro end_ fuel
              ((ro fuel).foldl (interPushStep w curr node visited1) (rest, pm)).1 visited1
              ((ro fuel).foldl (interPushStep w curr node visited1) (rest, pm)).2
          | none => searchLoop w eo ro end_ fuel rest visited1 pm

/-- The parent-link walk reconstructing the path from the destination back to
the start (then reversed); the source indexes the HashMap directly, so a
missing entry (which cannot occur after a successful search) is modelled as
none. -/
def reconstructPath (pm : List (Entity × Entity)) (start : Entity) :
    Nat → Entity → Option (List Entity)
  | 0, _ => none
  | Nat.succ fuel, curr =>
    if curr = start then some [start]
    else
      match pm.lookup curr with
      | some p => (reconstructPath pm start fuel p).map (fun l => l ++ [curr])
      | none => none

/-- The full path computation of spawn_vehicle for a chosen start and
destination building: run the search, then reconstruct the forward path. -/
def spawn_vehicle_path (w : World) (eo : Nat → List (Fin 2)) (ro : Nat → List (Fin 4))
    (start end_ : Entity) (fuel : Nat) : Option (List Entity) :=
  match searchLoop w eo ro end_ fuel [start] [] [] with
  | some pm => reconstructPath pm start fuel end_
  | none => none

/-- One-step adjacency of the heterogeneous road-network graph, as traversed
by the path finder: building to connected road, segment to destination
building, segment to end intersection, intersection to connected road. -/
def GraphAdj (w : World) (a b : Entity) : Prop :=
  (∃ bld, w.buildings a = some bld ∧ b ∈ bld.roads) ∨
  (∃ seg, w.segments a = some seg ∧ (b ∈ seg.dests ∨ ∃ i : Fin 2, seg.ends i = some b)) ∨
  (∃ node, w.inters a = some node ∧ ∃ j : Fin 4, node.roads j = some b)

/-- Every parent-map entry records a graph-adjacent (parent, child) pair. -/
def PmOk (w : World) (pm : List (Entity × Entity)) : Prop :=
  ∀ pr ∈ pm, GraphAdj w pr.2 pr.1

/-- Symmetrized adjacency. -/
def SymAdj (w : World) (a b : Entity) : Prop := GraphAdj w a b ∨ GraphAdj w b a

/-- Connectivity of the road-network graph between two entities. -/
def Connected (w : World) (a b : Entity) : Prop := Relation.ReflTransGen (SymAdj w) a b

/-- The C1 counterexample world: buildings 0 and 1, dead-end road 2 touching
only building 0, road 3 connecting buildings 0 and 1.  Building 0's road set
iterates as [2, 3], so the search explores only the dead end. -/
def world_c1 : World :=
  { buildings := fun e =>
      if e = 0 then some ⟨GridArea.new (GridCell.new 0 0) (GridCell.new 1 1), [2, 3], []⟩
      else if e = 1 then
        some ⟨GridArea.new (GridCell.new 10 0) (GridCell.new 11 1), [3], []⟩
      else none,
    segments := fun e =>
      if e = 2 then
        some ⟨GAxis.Z, GridArea.new (GridCell.new 0 2) (GridCell.new 1 3), fun _ => none,
          [0], []⟩
      else if e = 3 then
        some ⟨GAxis.X, GridArea.new (GridCell.new 2 0) (GridCell.new 9 1), fun _ => none,
          [0, 1], []⟩
      else none,
    inters := fun _ => none }

/-- The C1/C10 witness world: buildings 0 and 1 joined by road 2. -/
def world_c1wit : World :=
  { buildings := fun e =>
      if e = 0 then some ⟨GridArea.new (GridCell.new 0 0) (GridCell.new 1 1), [2], []⟩
      else if e = 1 then
        some ⟨GridArea.new (GridCell.new 0 6) (GridCell.new 1 7), [2], []⟩
      else none,
    segments := fun e =>
      if e = 2 then
        some ⟨GAxis.Z, GridArea.new (GridCell.new 0 2) (GridCell.new 1 5), fun _ => none,
          [0, 1], []⟩
      else none,
    inters := fun _ => none }

/-! Observer registration at vehicle spawn and observer despawn on
OnIntersectionDestroyed, src/src/types/vehicle.rs lines 556-564 and 601-615.
The schedule (src/src/schedule.rs) runs UpdatePathing (the destroy handlers)
before DestroyEntities, so the intersection record still exists when the
handler reads its observers; despawning is modelled as removal from the set of
live vehicles. -/

/-- The per-step body of the observer-registration loop of spawn_vehicle. -/
def registerStep (v : Entity) (wa : World) (step : Entity) : World :=
  match wa.buildings step with
  | some b => wa.setBuilding step { b with observers := insertSet v b.observers }
  | none =>
    match wa.segments step with
    | some s => wa.setSegment step { s with observers := insertSet v s.observers }
    | none =>
      match wa.inters step with
      | some i => wa.setInter step { i with observers := insertSet v i.observers }
      | none => wa

/-- Observer registration of a freshly spawned vehicle on every step of its
path. -/
def registerObservers (w : World) (path : List Entity) (v : Entity) : World :=
  path.foldl (registerStep v) w

/-- Processing of one OnIntersectionDestroyed event by
handle_intersection_destroyed: despawn every observer vehicle. -/
def handle_intersection_destroyed (w : World) (ent : Entity) (live : List Entity) :
    List Entity :=
  match w.inters ent with
  | some inter => live.filter (fun v => !(inter.observers.contains v))
  | none => live

/-- A world with one intersection (9) between buildings 0 and 1, for the C8
witness. -/
def w_c8wit : World :=
  { buildings := fun e =>
      if e = 0 then some (Building.new (GridArea.new (GridCell.new 0 0) (GridCell.new 1 1)))
      else if e = 1 then
        some (Building.new (GridArea.new (GridCell.new 0 8) (GridCell.new 1 9)))
      else none,
    segments := fun _ => none,
    inters := fun e =>
      if e = 9 then some (Intersection.new (GridArea.new (GridCell.new 0 4) (GridCell.new 1 5)))
      else none }

/-! Theorems. -/

theorem IVec2.add_def (a b : IVec2) : a + b = ⟨a.x + b.x, a.y + b.y⟩ := rfl

theorem mem_intRange {lo hi z : Int} : z ∈ intRange lo hi ↔ lo ≤ z ∧ z ≤ hi := by
  unfold intRange
  simp only [List.mem_map, List.mem_range]
  constructor
  · rintro ⟨n, hn, rfl⟩
    omega
  · rintro ⟨h1, h2⟩
    exact ⟨(z - lo).toNat, by omega, by omega⟩

theorem GridArea.mem_cells {a : GridArea} {c : GridCell} :
    c ∈ a.cells ↔
      a.min.pos.x ≤ c.pos.x ∧ c.pos.x ≤ a.max.pos.x ∧
      a.min.pos.y ≤ c.pos.y ∧ c.pos.y ≤ a.max.pos.y := by
  unfold GridArea.cells
  simp only [List.mem_flatMap, List.mem_map, mem_intRange]
  constructor
  · rintro ⟨y, ⟨hy1, hy2⟩, x, ⟨hx1, hx2⟩, rfl⟩
    exact ⟨hx1, hx2, hy1, hy2⟩
  · rintro ⟨hx1, hx2, hy1, hy2⟩
    exact ⟨c.pos.y, ⟨hy1, hy2⟩, c.pos.x, ⟨hx1, hx2⟩, rfl⟩

/-! Helper lemmas about the grid primitives. -/

theorem offsetInBounds_cell (c : GridCell) :
    offsetInBounds (gridCenter + c.pos) ↔
      (0 ≤ 100 + c.pos.x ∧ 100 + c.pos.x < 200 ∧ 0 ≤ 100 + c.pos.y ∧ 100 + c.pos.y < 200) :=
  Iff.rfl

theorem coordinate_cell (c : GridCell) :
    coordinate (gridCenter + c.pos) = (100 + c.pos.y) * 200 + (100 + c.pos.x) := rfl

theorem coordinate_inj {c d : GridCell}
    (hc : offsetInBounds (gridCenter + c.pos)) (hd : offsetInBounds (gridCenter + d.pos))
    (h : coordinate (gridCenter + c.pos) = coordinate (gridCenter + d.pos)) : c = d := by
  rw [offsetInBounds_cell] at hc hd
  rw [coordinate_cell, coordinate_cell] at h
  obtain ⟨⟨cx, cy⟩⟩ := c
  obtain ⟨⟨dx, dy⟩⟩ := d
  simp only [GridCell.mk.injEq, IVec2.mk.injEq]
  simp only at hc hd h
  constructor <;> omega

theorem writeCells_eq (cells : List GridCell) (v : Option Entity)
    (f : Int → Option Entity) (i : Int) :
    writeCells cells v f i =
      if ∃ c ∈ cells, i = coordinate (gridCenter + c.pos) then v else f i := by
  induction cells generalizing f with
  | nil => simp [writeCells]
  | cons c rest ih =>
    have hstep : writeCells (c :: rest) v f i =
        writeCells rest v (fun j => if j = coordinate (gridCenter + c.pos) then v else f j) i :=
      rfl
    rw [hstep, ih]
    by_cases hrest : ∃ d ∈ rest, i = coordinate (gridCenter + d.pos)
    · obtain ⟨d, hd, hh⟩ := hrest
      rw [if_pos ⟨d, hd, hh⟩, if_pos ⟨d, List.mem_cons_of_mem _ hd, hh⟩]
    · rw [if_neg hrest]
      by_cases hc : i = coordinate (gridCenter + c.pos)
      · show (if i = coordinate (gridCenter + c.pos) then v else f i) = _
        rw [if_pos hc, if_pos ⟨c, List.mem_cons_self _ _, hc⟩]
      · show (if i = coordinate (gridCenter + c.pos) then v else f i) = _
        rw [if_neg hc, if_neg]
        rintro ⟨d, hd, hh⟩
        rcases List.mem_cons.mp hd with hcase | hcase
        · exact hc (by rw [hcase] at hh; exact hh)
        · exact hrest ⟨d, hcase, hh⟩

theorem entity_at_def (g : Grid) (cell : GridCell) :
    g.entity_at cell =
      if offsetInBounds (gridCenter + cell.pos) then
        Except.ok (g.entities (coordinate (gridCenter + cell.pos)))
      else Except.error ⟨⟩ := rfl

theorem entity_at_ok {g : Grid} {c : GridCell} (h : offsetInBounds (gridCenter + c.pos)) :
    g.entity_at c = Except.ok (g.entities (coordinate (gridCenter + c.pos))) := by
  rw [entity_at_def, if_pos h]

theorem singleEntityLoop_some_acc (g : Grid) (cells : List GridCell) (u e : Entity) :
    singleEntityLoop g cells (some u) = some e ↔
      u = e ∧ ∀ c ∈ cells, g.entity_at c = Except.ok (some u) := by
  induction cells with
  | nil => simp [singleEntityLoop]
  | cons c rest ih =>
    show (match g.entity_at c with
      | Except.error _ => none
      | Except.ok none => none
      | Except.ok (some entity) =>
        match (some u : Option Entity) with
        | some unique => if unique ≠ entity then none else singleEntityLoop g rest (some unique)
        | none => singleEntityLoop g rest (some entity)) = some e ↔ _
    cases hc : g.entity_at c with
    | error err =>
      simp only [List.mem_cons]
      constructor
      · intro habs; exact absurd habs (by simp)
      · rintro ⟨-, hall⟩
        have := hall c (Or.inl rfl)
        rw [hc] at this
        exact absurd this (by simp)
    | ok slot =>
      cases slot with
      | none =>
        simp only [List.mem_cons]
        constructor
        · intro habs; exact absurd habs (by simp)
        · rintro ⟨-, hall⟩
          have := hall c (Or.inl rfl)
          rw [hc] at this
          simp at this
      | some ent =>
        by_cases hu : u = ent
        · subst hu
          show (if u ≠ u then (none : Option Entity) else singleEntityLoop g rest (some u)) =
              some e ↔ _
          rw [show (if u ≠ u then (none : Option Entity) else singleEntityLoop g rest (some u)) =
              singleEntityLoop g rest (some u) from by simp]
          rw [ih]
          simp only [List.forall_mem_cons, hc]
          constructor
          · rintro ⟨h1, h2⟩; exact ⟨h1, trivial, h2⟩
          · rintro ⟨h1, -, h2⟩; exact ⟨h1, h2⟩
        · show (if u ≠ ent then (none : Option Entity) else singleEntityLoop g rest (some u)) =
              some e ↔ _
          rw [if_pos hu]
          simp only [List.forall_mem_cons, hc]
          constructor
          · intro habs; exact absurd habs (by simp)
          · rintro ⟨-, hhead, -⟩
            exact absurd (Option.some.inj (Except.ok.inj hhead)) fun hh => hu hh.symm

theorem singleEntityLoop_none (g : Grid) (cells : List GridCell) (e : Entity) :
    singleEntityLoop g cells none = some e ↔
      cells ≠ [] ∧ ∀ c ∈ cells, g.entity_at c = Except.ok (some e) := by
  cases cells with
  | nil => simp [singleEntityLoop]
  | cons c rest =>
    show (match g.entity_at c with
      | Except.error _ => none
      | Except.ok none => none
      | Except.ok (some entity) =>
        match (none : Option Entity) with
        | some unique => if unique ≠ entity then none else singleEntityLoop g rest (some unique)
        | none => singleEntityLoop g rest (some entity)) = some e ↔ _
    cases hc : g.entity_at c with
    | error err =>
      simp only [List.forall_mem_cons, hc]
      constructor
      · intro habs; exact absurd habs (by simp)
      · rintro ⟨-, hhead, -⟩; exact absurd hhead (by simp)
    | ok slot =>
      cases slot with
      | none =>
        simp only [List.forall_mem_cons, hc]
        constructor
        · intro habs; exact absurd habs (by simp)
        · rintro ⟨-, hhead, -⟩; simp at hhead
      | some ent =>
        show singleEntityLoop g rest (some ent) = some e ↔ _
        rw [singleEntityLoop_some_acc]
        simp only [List.forall_mem_cons, hc, ne_eq, List.cons_ne_self]
        constructor
        · rintro ⟨rfl, h2⟩
          exact ⟨by simp, rfl, h2⟩
        · rintro ⟨-, hhead, h2⟩
          have he : ent = e := Option.some.inj (Except.ok.inj hhead)
          subst he
          exact ⟨rfl, h2⟩

/-- C9: Grid::entity_at returns Err(GridBoundsError) exactly when the queried
cell's center-offset coordinate falls outside [0, GRID_DIAMETER) on either axis
(equivalently, the cell coordinate falls outside [-GRID_RADIUS, GRID_RADIUS)),
and otherwise returns Ok carrying the occupant slot of that cell.  The query is
a pure read of the grid (it takes the state only as input), so the grid state
is unchanged. -/
theorem c9_entity_at_bounds (g : Grid) (cell : GridCell) :
    (g.entity_at cell = Except.error ⟨⟩ ↔
      (cell.pos.x < -GRID_RADIUS ∨ GRID_RADIUS ≤ cell.pos.x ∨
       cell.pos.y < -GRID_RADIUS ∨ GRID_RADIUS ≤ cell.pos.y)) ∧
    ((-GRID_RADIUS ≤ cell.pos.x ∧ cell.pos.x < GRID_RADIUS ∧
      -GRID_RADIUS ≤ cell.pos.y ∧ cell.pos.y < GRID_RADIUS) →
      g.entity_at cell = Except.ok (g.entities (coordinate (gridCenter + cell.pos)))) := by
  rw [entity_at_def]
  by_cases h : offsetInBounds (gridCenter + cell.pos)
  · rw [if_pos h]
    rw [offsetInBounds_cell] at h
    simp only [GRID_RADIUS]
    constructor
    · constructor
      · intro habs; exact absurd habs (by simp)
      · intro hout; exfalso; omega
    · intro _; trivial
  · rw [if_neg h]
    rw [offsetInBounds_cell] at h
    simp only [GRID_RADIUS]
    constructor
    · constructor
      · intro _; omega
      · intro _; trivial
    · intro hin; exfalso; exact h (by omega)

/-- Witness for C9 at concrete cells of a concrete grid: the origin cell reads
Ok, a far-out cell reads Err. -/
theorem c9_entity_at_bounds_witness :
    Grid.new.entity_at (GridCell.new 0 0) = Except.ok none ∧
    Grid.new.entity_at (GridCell.new 250 0) = Except.error ⟨⟩ := by
  constructor
  · exact (c9_entity_at_bounds Grid.new (GridCell.new 0 0)).2 (by decide)
  · exact (c9_entity_at_bounds Grid.new (GridCell.new 250 0)).1.mpr (by decide)

/-- C4: for a well-formed (nonempty) area, Grid::single_entity_in_area returns
`some e` exactly when every cell of the area is in-bounds and its occupant slot
holds `e`; any out-of-bounds, empty, or differently-occupied cell makes the
result `none`. -/
theorem c4_single_entity_in_area (g : Grid) (a : GridArea) (e : Entity)
    (hwf : a.min.pos.x ≤ a.max.pos.x ∧ a.min.pos.y ≤ a.max.pos.y) :
    g.single_entity_in_area a = some e ↔
      ∀ c : GridCell,
        (a.min.pos.x ≤ c.pos.x ∧ c.pos.x ≤ a.max.pos.x ∧
         a.min.pos.y ≤ c.pos.y ∧ c.pos.y ≤ a.max.pos.y) →
        g.entity_at c = Except.ok (some e) := by
  rw [Grid.single_entity_in_area, singleEntityLoop_none]
  have hmem : a.min ∈ a.cells :=
    GridArea.mem_cells.mpr ⟨le_refl _, hwf.1, le_refl _, hwf.2⟩
  have hne : a.cells ≠ [] := List.ne_nil_of_mem hmem
  rw [and_iff_right hne]
  constructor
  · intro hall c hc
    exact hall c (GridArea.mem_cells.mpr hc)
  · intro hall c hc
    exact hall c (GridArea.mem_cells.mp hc)

/-- Witness for C4: a 1x2 area fully marked with handle 7 reports handle 7, and
the theorem then yields the per-cell occupancy. -/
theorem c4_single_entity_in_area_witness :
    (Grid.new.mark_area_occupied
        (GridArea.new (GridCell.new 0 0) (GridCell.new 0 1)) 7).single_entity_in_area
      (GridArea.new (GridCell.new 0 0) (GridCell.new 0 1)) = some 7 ∧
    (Grid.new.mark_area_occupied
        (GridArea.new (GridCell.new 0 0) (GridCell.new 0 1)) 7).entity_at
      (GridCell.new 0 1) = Except.ok (some 7) := by
  refine ⟨by decide, ?_⟩
  exact (c4_single_entity_in_area
      (Grid.new.mark_area_occupied (GridArea.new (GridCell.new 0 0) (GridCell.new 0 1)) 7)
      (GridArea.new (GridCell.new 0 0) (GridCell.new 0 1)) 7 (by decide)).mp
    (by decide) (GridCell.new 0 1) (by decide)

/-- C5: marking a fresh entity over an in-bounds area A and then erasing it
leaves every cell of A unoccupied, leaves every in-bounds cell outside A with
exactly its prior value, removes the entity's reverse-list entry, leaves other
reverse-list entries untouched, and erasing an entity with no reverse-list
entry changes nothing. -/
theorem c5_mark_then_erase (g : Grid) (area : GridArea) (entity : Entity)
    (hfresh : g.addresses entity = none)
    (hin : ∀ c ∈ area.cells, offsetInBounds (gridCenter + c.pos)) :
    (∀ c ∈ area.cells,
      ((g.mark_area_occupied area entity).erase entity).entity_at c = Except.ok none) ∧
    (∀ c : GridCell, offsetInBounds (gridCenter + c.pos) → c ∉ area.cells →
      ((g.mark_area_occupied area entity).erase entity).entity_at c = g.entity_at c) ∧
    ((g.mark_area_occupied area entity).erase entity).addresses entity = none ∧
    (∀ e2, e2 ≠ entity →
      ((g.mark_area_occupied area entity).erase entity).addresses e2 = g.addresses e2) ∧
    (∀ (g0 : Grid) (e0 : Entity), g0.addresses e0 = none → g0.erase e0 = g0) := by
  have haddr : (g.mark_area_occupied area entity).addresses entity = some area.cells := by
    simp [Grid.mark_area_occupied, hfresh]
  have herase : (g.mark_area_occupied area entity).erase entity =
      { entities := writeCells area.cells none (g.mark_area_occupied area entity).entities,
        addresses := fun e =>
          if e = entity then none else (g.mark_area_occupied area entity).addresses e } := by
    simp only [Grid.erase, haddr]
  have hents : ∀ i : Int,
      ((g.mark_area_occupied area entity).erase entity).entities i =
        if ∃ c ∈ area.cells, i = coordinate (gridCenter + c.pos) then none
        else g.entities i := by
    intro i
    rw [herase]
    show writeCells area.cells none _ i = _
    rw [writeCells_eq]
    by_cases hex : ∃ c ∈ area.cells, i = coordinate (gridCenter + c.pos)
    · rw [if_pos hex, if_pos hex]
    · rw [if_neg hex, if_neg hex]
      show (g.mark_area_occupied area entity).entities i = g.entities i
      show writeCells area.cells (some entity) g.entities i = g.entities i
      rw [writeCells_eq, if_neg hex]
  refine ⟨?_, ?_, ?_, ?_, ?_⟩
  · intro c hc
    rw [entity_at_ok (hin c hc), hents]
    rw [if_pos ⟨c, hc, rfl⟩]
  · intro c hcin hcout
    rw [entity_at_ok hcin, entity_at_ok hcin, hents]
    rw [if_neg]
    rintro ⟨d, hd, hcd⟩
    exact hcout (by rw [coordinate_inj hcin (hin d hd) hcd]; exact hd)
  · rw [herase]
    simp
  · intro e2 he2
    rw [herase]
    show (if e2 = entity then none else (g.mark_area_occupied area entity).addresses e2) = _
    rw [if_neg he2]
    show (if e2 = entity then some _ else g.addresses e2) = _
    rw [if_neg he2]
  · intro g0 e0 h0
    simp only [Grid.erase, h0]

/-- Witness for C5 on a concrete 1-cell area: the marked-then-erased cell is
empty, a distinct cell keeps its value, the reverse entry is gone. -/
theorem c5_mark_then_erase_witness :
    ((Grid.new.mark_area_occupied (GridArea.new (GridCell.new 0 0) (GridCell.new 0 0)) 3).erase
        3).entity_at (GridCell.new 0 0) = Except.ok none ∧
    ((Grid.new.mark_area_occupied (GridArea.new (GridCell.new 0 0) (GridCell.new 0 0)) 3).erase
        3).entity_at (GridCell.new 5 5) = Grid.new.entity_at (GridCell.new 5 5) ∧
    ((Grid.new.mark_area_occupied (GridArea.new (GridCell.new 0 0) (GridCell.new 0 0)) 3).erase
        3).addresses 3 = none := by
  have h := c5_mark_then_erase Grid.new
    (GridArea.new (GridCell.new 0 0) (GridCell.new 0 0)) 3 rfl (by decide)
  exact ⟨h.1 (GridCell.new 0 0) (by decide),
    h.2.1 (GridCell.new 5 5) (by decide) (by decide), h.2.2.1⟩

/-- C2 counterexample: after add_roads_to_graph processes the OnRoadSpawned
events for segments 21 and 22 (both attached to the south side of the wide
intersection 20) and before any destroy, segment 21 holds ends[0] =
Some(20), yet intersection 20 has NO roads slot equal to Some(21): its south
slot was overwritten with Some(22) by the second event.  This refutes the
claimed "exactly one roads[dir] slot equal to Some(segment)" reciprocity. -/
theorem c2_counterexample :
    (world_c2.segments 21).map (fun s => (s.ends 0, s.ends 1)) = some (some 20, none) ∧
    (world_c2.inters 20).map (fun i => (i.roads 0, i.roads 1, i.roads 2, i.roads 3)) =
      some (none, some 22, none, none) := by
  constructor
  · decide
  · decide

/-- C3 counterexample: the graph-repair pass produced a state in which
intersection 10's south slot holds segment 5 while segment 5's end slots hold
only intersection 11 (the lateral link overwrote the first).  Processing
OnRoadDestroyed(5) then clears only the intersections listed in segment 5's
own end slots, so intersection 10 still references the destroyed entity 5 —
refuting "no record in the graph still references e". -/
theorem c3_counterexample :
    (world_c3_mid.segments 5).map (fun s => (s.ends 0, s.ends 1)) = some (some 11, none) ∧
    (world_c3.inters 10).map (fun i => i.roads 1) = some (some 5) ∧
    (world_c3.inters 11).map (fun i => (i.roads 0, i.roads 1, i.roads 2, i.roads 3)) =
      some (none, none, none, none) := by
  refine ⟨by decide, by decide, by decide⟩

/-! Lemmas for the removal passes. -/

theorem clearVal_ne {n : Nat} (f : Fin n → Option Entity) (entity : Entity) (j : Fin n) :
    clearVal f entity j ≠ some entity := by
  unfold clearVal
  by_cases h : f j = some entity
  · rw [if_pos h]; simp
  · rw [if_neg h]; exact h

theorem not_mem_filter_bne (l : List Entity) (entity : Entity) :
    entity ∉ l.filter (fun r => r != entity) := by
  simp [List.mem_filter]

theorem setInter_inters (w : World) (e : Entity) (i : Intersection) (n : Entity) :
    (w.setInter e i).inters n = if n = e then some i else w.inters n := rfl

theorem setBuilding_buildings (w : World) (e : Entity) (b : Building) (n : Entity) :
    (w.setBuilding e b).buildings n = if n = e then some b else w.buildings n := rfl

theorem setSegment_segments (w : World) (e : Entity) (s : RoadSegment) (n : Entity) :
    (w.setSegment e s).segments n = if n = e then some s else w.segments n := rfl

theorem removeRoadEndsStep_none (entity : Entity) (wa : World) :
    removeRoadEndsStep entity wa none = wa := rfl

theorem removeRoadEndsStep_skip (entity : Entity) (wa : World) (e2 : Entity)
    (h : wa.inters e2 = none) : removeRoadEndsStep entity wa (some e2) = wa := by
  show (match wa.inters e2 with
    | some inter => wa.setInter e2 { inter with roads := clearVal inter.roads entity }
    | none => wa) = wa
  rw [h]

theorem removeRoadEndsStep_clear (entity : Entity) (wa : World) (e2 : Entity)
    (inter : Intersection) (h : wa.inters e2 = some inter) :
    removeRoadEndsStep entity wa (some e2) =
      wa.setInter e2 { inter with roads := clearVal inter.roads entity } := by
  show (match wa.inters e2 with
    | some inter => wa.setInter e2 { inter with roads := clearVal inter.roads entity }
    | none => wa) = _
  rw [h]

theorem removeRoadDestsStep_skip (entity : Entity) (wa : World) (dest : Entity)
    (h : wa.buildings dest = none) : removeRoadDestsStep entity wa dest = wa := by
  show (match wa.buildings dest with
    | some building =>
      wa.setBuilding dest { building with roads := building.roads.filter (fun r => r != entity) }
    | none => wa) = wa
  rw [h]

theorem removeRoadDestsStep_clear (entity : Entity) (wa : World) (dest : Entity)
    (building : Building) (h : wa.buildings dest = some building) :
    removeRoadDestsStep entity wa dest =
      wa.setBuilding dest
        { building with roads := building.roads.filter (fun r => r != entity) } := by
  show (match wa.buildings dest with
    | some building =>
      wa.setBuilding dest { building with roads := building.roads.filter (fun r => r != entity) }
    | none => wa) = _
  rw [h]

theorem endsFold_inters_none (entity : Entity) (slots : List (Option Entity)) (wa : World)
    (n : Entity) (h : wa.inters n = none) :
    (slots.foldl (removeRoadEndsStep entity) wa).inters n = none := by
  induction slots generalizing wa with
  | nil => exact h
  | cons slot rest ih =>
    rw [List.foldl_cons]
    refine ih (removeRoadEndsStep entity wa slot) ?_
    cases slot with
    | none => rw [removeRoadEndsStep_none]; exact h
    | some e2 =>
      cases he2 : wa.inters e2 with
      | none => rw [removeRoadEndsStep_skip entity wa e2 he2]; exact h
      | some inter =>
        rw [removeRoadEndsStep_clear entity wa e2 inter he2, setInter_inters, if_neg, h]
        rintro rfl
        rw [h] at he2
        exact absurd he2 (by simp)

theorem endsFold_no_new_ref (entity : Entity) (slots : List (Option Entity)) (wa : World)
    (n : Entity) (inter2 : Intersection) (j : Fin 4)
    (hfin : (slots.foldl (removeRoadEndsStep entity) wa).inters n = some inter2)
    (hj : inter2.roads j = some entity) :
    ∃ inter0, wa.inters n = some inter0 ∧ inter0.roads j = some entity := by
  induction slots generalizing wa with
  | nil => exact ⟨inter2, hfin, hj⟩
  | cons slot rest ih =>
    rw [List.foldl_cons] at hfin
    obtain ⟨inter1, h1, hj1⟩ := ih (removeRoadEndsStep entity wa slot) hfin
    cases slot with
    | none => rw [removeRoadEndsStep_none] at h1; exact ⟨inter1, h1, hj1⟩
    | some e2 =>
      cases he2 : wa.inters e2 with
      | none => rw [removeRoadEndsStep_skip entity wa e2 he2] at h1; exact ⟨inter1, h1, hj1⟩
      | some inter =>
        rw [removeRoadEndsStep_clear entity wa e2 inter he2, setInter_inters] at h1
        by_cases hne : n = e2
        · rw [if_pos hne] at h1
          have heq : inter1 = { inter with roads := clearVal inter.roads entity } :=
            (Option.some.inj h1).symm
          rw [heq] at hj1
          exact absurd hj1 (clearVal_ne inter.roads entity j)
        · rw [if_neg hne] at h1
          exact ⟨inter1, h1, hj1⟩

theorem endsFold_clears (entity : Entity) (slots : List (Option Entity)) (wa : World)
    (n : Entity) (hmem : some n ∈ slots) (inter2 : Intersection) (j : Fin 4)
    (hfin : (slots.foldl (removeRoadEndsStep entity) wa).inters n = some inter2) :
    inter2.roads j ≠ some entity := by
  induction slots generalizing wa with
  | nil => exact absurd hmem (List.not_mem_nil _)
  | cons slot rest ih =>
    rw [List.foldl_cons] at hfin
    rcases List.mem_cons.mp hmem with heq | hrest
    · subst heq
      cases he2 : wa.inters n with
      | none =>
        rw [removeRoadEndsStep_skip entity wa n he2] at hfin
        have hnone := endsFold_inters_none entity rest wa n he2
        rw [hfin] at hnone
        exact absurd hnone (by simp)
      | some inter =>
        intro hj
        rw [removeRoadEndsStep_clear entity wa n inter he2] at hfin
        obtain ⟨inter0, h0, hj0⟩ := endsFold_no_new_ref entity rest _ n inter2 j hfin hj
        rw [setInter_inters, if_pos rfl] at h0
        have heq : inter0 = { inter with roads := clearVal inter.roads entity } :=
          (Option.some.inj h0).symm
        rw [heq] at hj0
        exact absurd hj0 (clearVal_ne inter.roads entity j)
    · exact ih (removeRoadEndsStep entity wa slot) hrest hfin

theorem destsFold_buildings_none (entity : Entity) (dests : List Entity) (wa : World)
    (b : Entity) (h : wa.buildings b = none) :
    (dests.foldl (removeRoadDestsStep entity) wa).buildings b = none := by
  induction dests generalizing wa with
  | nil => exact h
  | cons dest rest ih =>
    rw [List.foldl_cons]
    refine ih (removeRoadDestsStep entity wa dest) ?_
    cases hd : wa.buildings dest with
    | none => rw [removeRoadDestsStep_skip entity wa dest hd]; exact h
    | some building =>
      rw [removeRoadDestsStep_clear entity wa dest building hd, setBuilding_buildings, if_neg, h]
      rintro rfl
      rw [h] at hd
      exact absurd hd (by simp)

theorem destsFold_no_new_ref (entity : Entity) (dests : List Entity) (wa : World)
    (b : Entity) (b2 : Building)
    (hfin : (dests.foldl (removeRoadDestsStep entity) wa).buildings b = some b2)
    (hmem : entity ∈ b2.roads) :
    ∃ b0, wa.buildings b = some b0 ∧ entity ∈ b0.roads := by
  induction dests generalizing wa with
  | nil => exact ⟨b2, hfin, hmem⟩
  | cons dest rest ih =>
    rw [List.foldl_cons] at hfin
    obtain ⟨b1, h1, hm1⟩ := ih (removeRoadDestsStep entity wa dest) hfin
    cases hd : wa.buildings dest with
    | none => rw [removeRoadDestsStep_skip entity wa dest hd] at h1; exact ⟨b1, h1, hm1⟩
    | some building =>
      rw [removeRoadDestsStep_clear entity wa dest building hd, setBuilding_buildings] at h1
      by_cases hne : b = dest
      · rw [if_pos hne] at h1
        have heq : b1 = { building with roads := building.roads.filter (fun r => r != entity) } :=
          (Option.some.inj h1).symm
        rw [heq] at hm1
        exact absurd hm1 (not_mem_filter_bne building.roads entity)
      · rw [if_neg hne] at h1
        exact ⟨b1, h1, hm1⟩

theorem destsFold_clears (entity : Entity) (dests : List Entity) (wa : World)
    (b : Entity) (hmem : b ∈ dests) (b2 : Building)
    (hfin : (dests.foldl (removeRoadDestsStep entity) wa).buildings b = some b2) :
    entity ∉ b2.roads := by
  induction dests generalizing wa with
  | nil => exact absurd hmem (List.not_mem_nil _)
  | cons dest rest ih =>
    rw [List.foldl_cons] at hfin
    rcases List.mem_cons.mp hmem with heq | hrest
    · subst heq
      cases hd : wa.buildings b with
      | none =>
        rw [removeRoadDestsStep_skip entity wa b hd] at hfin
        have hnone := destsFold_buildings_none entity rest wa b hd
        rw [hfin] at hnone
        exact absurd hnone (by simp)
      | some building =>
        intro hin
        rw [removeRoadDestsStep_clear entity wa b building hd] at hfin
        obtain ⟨b0, h0, hm0⟩ := destsFold_no_new_ref entity rest _ b b2 hfin hin
        rw [setBuilding_buildings, if_pos rfl] at h0
        have heq : b0 = { building with roads := building.roads.filter (fun r => r != entity) } :=
          (Option.some.inj h0).symm
        rw [heq] at hm0
        exact absurd hm0 (not_mem_filter_bne building.roads entity)
    · exact ih (removeRoadDestsStep entity wa dest) hrest hfin

theorem removeInterRoadsStep_none (entity : Entity) (wa : World) :
    removeInterRoadsStep entity wa none = wa := rfl

theorem removeInterRoadsStep_skip (entity : Entity) (wa : World) (road : Entity)
    (h : wa.segments road = none) : removeInterRoadsStep entity wa (some road) = wa := by
  show (match wa.segments road with
    | some segment => wa.setSegment road { segment with ends := clearVal segment.ends entity }
    | none => wa) = wa
  rw [h]

theorem removeInterRoadsStep_clear (entity : Entity) (wa : World) (road : Entity)
    (segment : RoadSegment) (h : wa.segments road = some segment) :
    removeInterRoadsStep entity wa (some road) =
      wa.setSegment road { segment with ends := clearVal segment.ends entity } := by
  show (match wa.segments road with
    | some segment => wa.setSegment road { segment with ends := clearVal segment.ends entity }
    | none => wa) = _
  rw [h]

theorem roadsFold_segments_none (entity : Entity) (slots : List (Option Entity)) (wa : World)
    (r : Entity) (h : wa.segments r = none) :
    (slots.foldl (removeInterRoadsStep entity) wa).segments r = none := by
  induction slots generalizing wa with
  | nil => exact h
  | cons slot rest ih =>
    rw [List.foldl_cons]
    refine ih (removeInterRoadsStep entity wa slot) ?_
    cases slot with
    | none => rw [removeInterRoadsStep_none]; exact h
    | some road =>
      cases hr : wa.segments road with
      | none => rw [removeInterRoadsStep_skip entity wa road hr]; exact h
      | some segment =>
        rw [removeInterRoadsStep_clear entity wa road segment hr, setSegment_segments, if_neg, h]
        rintro rfl
        rw [h] at hr
        exact absurd hr (by simp)

theorem roadsFold_no_new_ref (entity : Entity) (slots : List (Option Entity)) (wa : World)
    (r : Entity) (seg2 : RoadSegment) (j : Fin 2)
    (hfin : (slots.foldl (removeInterRoadsStep entity) wa).segments r = some seg2)
    (hj : seg2.ends j = some entity) :
    ∃ seg0, wa.segments r = some seg0 ∧ seg0.ends j = some entity := by
  induction slots generalizing wa with
  | nil => exact ⟨seg2, hfin, hj⟩
  | cons slot rest ih =>
    rw [List.foldl_cons] at hfin
    obtain ⟨seg1, h1, hj1⟩ := ih (removeInterRoadsStep entity wa slot) hfin
    cases slot with
    | none => rw [removeInterRoadsStep_none] at h1; exact ⟨seg1, h1, hj1⟩
    | some road =>
      cases hr : wa.segments road with
      | none => rw [removeInterRoadsStep_skip entity wa road hr] at h1; exact ⟨seg1, h1, hj1⟩
      | some segment =>
        rw [removeInterRoadsStep_clear entity wa road segment hr, setSegment_segments] at h1
        by_cases hne : r = road
        · rw [if_pos hne] at h1
          have heq : seg1 = { segment with ends := clearVal segment.ends entity } :=
            (Option.some.inj h1).symm
          rw [heq] at hj1
          exact absurd hj1 (clearVal_ne segment.ends entity j)
        · rw [if_neg hne] at h1
          exact ⟨seg1, h1, hj1⟩

theorem roadsFold_clears (entity : Entity) (slots : List (Option Entity)) (wa : World)
    (r : Entity) (hmem : some r ∈ slots) (seg2 : RoadSegment) (j : Fin 2)
    (hfin : (slots.foldl (removeInterRoadsStep entity) wa).segments r = some seg2) :
    seg2.ends j ≠ some entity := by
  induction slots generalizing wa with
  | nil => exact absurd hmem (List.not_mem_nil _)
  | cons slot rest ih =>
    rw [List.foldl_cons] at hfin
    rcases List.mem_cons.mp hmem with heq | hrest
    · subst heq
      cases hr : wa.segments r with
      | none =>
        rw [removeInterRoadsStep_skip entity wa r hr] at hfin
        have hnone := roadsFold_segments_none entity rest wa r hr
        rw [hfin] at hnone
        exact absurd hnone (by simp)
      | some segment =>
        intro hj
        rw [removeInterRoadsStep_clear entity wa r segment hr] at hfin
        obtain ⟨seg0, h0, hj0⟩ := roadsFold_no_new_ref entity rest _ r seg2 j hfin hj
        rw [setSegment_segments, if_pos rfl] at h0
        have heq : seg0 = { segment with ends := clearVal segment.ends entity } :=
          (Option.some.inj h0).symm
        rw [heq] at hj0
        exact absurd hj0 (clearVal_ne segment.ends entity j)
    · exact ih (removeInterRoadsStep entity wa slot) hrest hfin

theorem removeBuildingRoadsStep_skip (entity : Entity) (wa : World) (road : Entity)
    (h : wa.segments road = none) : removeBuildingRoadsStep entity wa road = wa := by
  show (match wa.segments road with
    | some segment =>
      wa.setSegment road { segment with dests := segment.dests.filter (fun d => d != entity) }
    | none => wa) = wa
  rw [h]

theorem removeBuildingRoadsStep_clear (entity : Entity) (wa : World) (road : Entity)
    (segment : RoadSegment) (h : wa.segments road = some segment) :
    removeBuildingRoadsStep entity wa road =
      wa.setSegment road
        { segment with dests := segment.dests.filter (fun d => d != entity) } := by
  show (match wa.segments road with
    | some segment =>
      wa.setSegment road { segment with dests := segment.dests.filter (fun d => d != entity) }
    | none => wa) = _
  rw [h]

theorem broadsFold_segments_none (entity : Entity) (roads : List Entity) (wa : World)
    (r : Entity) (h : wa.segments r = none) :
    (roads.foldl (removeBuildingRoadsStep entity) wa).segments r = none := by
  induction roads generalizing wa with
  | nil => exact h
  | cons road rest ih =>
    rw [List.foldl_cons]
    refine ih (removeBuildingRoadsStep entity wa road) ?_
    cases hr : wa.segments road with
    | none => rw [removeBuildingRoadsStep_skip entity wa road hr]; exact h
    | some segment =>
      rw [removeBuildingRoadsStep_clear entity wa road segment hr, setSegment_segments, if_neg, h]
      rintro rfl
      rw [h] at hr
      exact absurd hr (by simp)

theorem broadsFold_no_new_ref (entity : Entity) (roads : List Entity) (wa : World)
    (r : Entity) (seg2 : RoadSegment)
    (hfin : (roads.foldl (removeBuildingRoadsStep entity) wa).segments r = some seg2)
    (hmem : entity ∈ seg2.dests) :
    ∃ seg0, wa.segments r = some seg0 ∧ entity ∈ seg0.dests := by
  induction roads generalizing wa with
  | nil => exact ⟨seg2, hfin, hmem⟩
  | cons road rest ih =>
    rw [List.foldl_cons] at hfin
    obtain ⟨seg1, h1, hm1⟩ := ih (removeBuildingRoadsStep entity wa road) hfin
    cases hr : wa.segments road with
    | none => rw [removeBuildingRoadsStep_skip entity wa road hr] at h1; exact ⟨seg1, h1, hm1⟩
    | some segment =>
      rw [removeBuildingRoadsStep_clear entity wa road segment hr, setSegment_segments] at h1
      by_cases hne : r = road
      · rw [if_pos hne] at h1
        have heq : seg1 = { segment with dests := segment.dests.filter (fun d => d != entity) } :=
          (Option.some.inj h1).symm
        rw [heq] at hm1
        exact absurd hm1 (not_mem_filter_bne segment.dests entity)
      · rw [if_neg hne] at h1
        exact ⟨seg1, h1, hm1⟩

theorem broadsFold_clears (entity : Entity) (roads : List Entity) (wa : World)
    (r : Entity) (hmem : r ∈ roads) (seg2 : RoadSegment)
    (hfin : (roads.foldl (removeBuildingRoadsStep entity) wa).segments r = some seg2) :
    entity ∉ seg2.dests := by
  induction roads generalizing wa with
  | nil => exact absurd hmem (List.not_mem_nil _)
  | cons road rest ih =>
    rw [List.foldl_cons] at hfin
    rcases List.mem_cons.mp hmem with heq | hrest
    · subst heq
      cases hr : wa.segments r with
      | none =>
        rw [removeBuildingRoadsStep_skip entity wa r hr] at hfin
        have hnone := broadsFold_segments_none entity rest wa r hr
        rw [hfin] at hnone
        exact absurd hnone (by simp)
      | some segment =>
        intro hin
        rw [removeBuildingRoadsStep_clear entity wa r segment hr] at hfin
        obtain ⟨seg0, h0, hm0⟩ := broadsFold_no_new_ref entity rest _ r seg2 hfin hin
        rw [setSegment_segments, if_pos rfl] at h0
        have heq : seg0 = { segment with dests := segment.dests.filter (fun d => d != entity) } :=
          (Option.some.inj h0).symm
        rw [heq] at hm0
        exact absurd hm0 (not_mem_filter_bne segment.dests entity)
    · exact ih (removeBuildingRoadsStep entity wa road) hrest hfin

/-- The destination-set pass of remove_roads_from_graph does not touch the
intersection table. -/
theorem destsFold_inters (entity : Entity) (dests : List Entity) (wa : World) (n : Entity) :
    (dests.foldl (removeRoadDestsStep entity) wa).inters n = wa.inters n := by
  induction dests generalizing wa with
  | nil => rfl
  | cons dest rest ih =>
    rw [List.foldl_cons, ih]
    cases hd : wa.buildings dest with
    | none => rw [removeRoadDestsStep_skip entity wa dest hd]
    | some building => rw [removeRoadDestsStep_clear entity wa dest building hd]; rfl

/-- C3 (amended): each graph-removal system erases the destroyed entity `e`
from exactly the records reachable through `e`'s OWN adjacency fields — for
OnRoadDestroyed(e), from every intersection listed in e.ends and every
building listed in e.dests; for OnIntersectionDestroyed(e), from every segment
listed in e.roads; for OnBuildingDestroyed(e), from every segment listed in
e.roads.  A record that references `e` without being referenced back (possible
after a slot overwrite during the spawn pass; see the counterexample) keeps its
stale reference. -/
theorem c3_remove_cleans_own_links (w : World) (entity : Entity) :
    (∀ segment, w.segments entity = some segment →
      (∀ n, some n ∈ segment.endsList →
        ∀ inter2, (remove_road_event w entity).inters n = some inter2 →
          ∀ j, inter2.roads j ≠ some entity) ∧
      (∀ b, b ∈ segment.dests →
        ∀ b2, (remove_road_event w entity).buildings b = some b2 → entity ∉ b2.roads)) ∧
    (∀ inter, w.inters entity = some inter →
      ∀ road, some road ∈ inter.roadsList →
        ∀ seg2, (remove_intersection_event w entity).segments road = some seg2 →
          ∀ j, seg2.ends j ≠ some entity) ∧
    (∀ building, w.buildings entity = some building →
      ∀ road, road ∈ building.roads →
        ∀ seg2, (remove_building_event w entity).segments road = some seg2 →
          entity ∉ seg2.dests) := by
  refine ⟨?_, ?_, ?_⟩
  · intro segment hseg
    have hev : remove_road_event w entity =
        segment.dests.foldl (removeRoadDestsStep entity)
          (segment.endsList.foldl (removeRoadEndsStep entity) w) := by
      show (match w.segments entity with
        | none => w
        | some segment =>
          segment.dests.foldl (removeRoadDestsStep entity)
            (segment.endsList.foldl (removeRoadEndsStep entity) w)) = _
      rw [hseg]
    constructor
    · intro n hn inter2 hfin j
      rw [hev, destsFold_inters] at hfin
      exact endsFold_clears entity segment.endsList w n hn inter2 j hfin
    · intro b hb b2 hfin
      rw [hev] at hfin
      exact destsFold_clears entity segment.dests _ b hb b2 hfin
  · intro inter hint road hroad seg2 hfin
    have hev : remove_intersection_event w entity =
        inter.roadsList.foldl (removeInterRoadsStep entity) w := by
      show (match w.inters entity with
        | none => w
        | some inter => inter.roadsList.foldl (removeInterRoadsStep entity) w) = _
      rw [hint]
    rw [hev] at hfin
    intro j
    exact roadsFold_clears entity inter.roadsList w road hroad seg2 j hfin
  · intro building hb road hroad seg2 hfin
    have hev : remove_building_event w entity =
        building.roads.foldl (removeBuildingRoadsStep entity) w := by
      show (match w.buildings entity with
        | none => w
        | some building => building.roads.foldl (removeBuildingRoadsStep entity) w) = _
      rw [hb]
    rw [hev] at hfin
    exact broadsFold_clears entity building.roads w road hroad seg2 hfin

/-- Witness for the C3 removal theorem: after OnRoadDestroyed(5) is processed
in a reciprocally-linked world, intersection 10 no longer holds segment 5 in
its south slot. -/
theorem c3_remove_cleans_own_links_witness :
    ((remove_road_event w_c3wit 5).inters 10).map (fun i => i.roads 1) ≠ some (some 5) := by
  intro habs
  cases hm : (remove_road_event w_c3wit 5).inters 10 with
  | none => rw [hm] at habs; exact absurd habs (by simp)
  | some inter2 =>
    rw [hm] at habs
    have hclaim := ((c3_remove_cleans_own_links w_c3wit 5).1 _ rfl).1 10 (by decide) inter2 hm 1
    exact hclaim (by simpa using habs)

/-! Lemmas for the road spawn pass (claim C2). -/

theorem setSegment_inters (w : World) (e : Entity) (s : RoadSegment) :
    (w.setSegment e s).inters = w.inters := rfl

theorem setBuilding_inters (w : World) (e : Entity) (b : Building) :
    (w.setBuilding e b).inters = w.inters := rfl

theorem setBuilding_segments (w : World) (e : Entity) (b : Building) :
    (w.setBuilding e b).segments = w.segments := rfl

theorem setInter_segments (w : World) (e : Entity) (i : Intersection) :
    (w.setInter e i).segments = w.segments := rfl

theorem setIdx_eval {n : Nat} (f : Fin n → Option Entity) (i : Fin n) (v : Option Entity)
    (j : Fin n) : setIdx f i v j = if j = i then v else f j := rfl

theorem addRoadBuildingStep_err (grid : Grid) (entity : Entity) (wa : World) (cell : GridCell)
    (err : GridBoundsError) (hc : grid.entity_at cell = Except.error err) :
    addRoadBuildingStep grid entity wa cell = wa := by
  unfold addRoadBuildingStep
  rw [hc]

theorem addRoadBuildingStep_empty (grid : Grid) (entity : Entity) (wa : World) (cell : GridCell)
    (hc : grid.entity_at cell = Except.ok none) :
    addRoadBuildingStep grid entity wa cell = wa := by
  unfold addRoadBuildingStep
  rw [hc]

theorem addRoadBuildingStep_occ (grid : Grid) (entity : Entity) (wa : World) (cell : GridCell)
    (adj : Entity) (hc : grid.entity_at cell = Except.ok (some adj)) :
    addRoadBuildingStep grid entity wa cell =
      match wa.buildings adj with
      | some building =>
        match wa.segments entity with
        | some segment =>
          (wa.setSegment entity
              { segment with dests := insertSet adj segment.dests }).setBuilding adj
            { building with roads := insertSet entity building.roads }
        | none => wa
      | none => wa := by
  unfold addRoadBuildingStep
  rw [hc]

theorem addRoadBuildingStep_inters (grid : Grid) (entity : Entity) (wa : World)
    (cell : GridCell) : (addRoadBuildingStep grid entity wa cell).inters = wa.inters := by
  cases hc : grid.entity_at cell with
  | error err => rw [addRoadBuildingStep_err grid entity wa cell err hc]
  | ok slot =>
    cases slot with
    | none => rw [addRoadBuildingStep_empty grid entity wa cell hc]
    | some adj =>
      rw [addRoadBuildingStep_occ grid entity wa cell adj hc]
      cases wa.buildings adj with
      | none => rfl
      | some building =>
        cases wa.segments entity with
        | none => rfl
        | some segment => rfl

theorem addRoadBuildingStep_segShape (grid : Grid) (entity : Entity) (wa : World)
    (cell : GridCell) (e2 : Entity) :
    segShape ((addRoadBuildingStep grid entity wa cell).segments e2) =
      segShape (wa.segments e2) := by
  cases hc : grid.entity_at cell with
  | error err => rw [addRoadBuildingStep_err grid entity wa cell err hc]
  | ok slot =>
    cases slot with
    | none => rw [addRoadBuildingStep_empty grid entity wa cell hc]
    | some adj =>
      rw [addRoadBuildingStep_occ grid entity wa cell adj hc]
      cases wa.buildings adj with
      | none => rfl
      | some building =>
        cases hseg : wa.segments entity with
        | none => rfl
        | some segment =>
          rw [show (((wa.setSegment entity
                { segment with dests := insertSet adj segment.dests }).setBuilding adj
                { building with roads := insertSet entity building.roads }).segments e2) =
              (if e2 = entity then some { segment with dests := insertSet adj segment.dests }
               else wa.segments e2) from rfl]
          by_cases he : e2 = entity
          · rw [if_pos he, he, hseg]; rfl
          · rw [if_neg he]

theorem buildScan_inters (grid : Grid) (entity : Entity) (cells : List GridCell) (wa : World) :
    (cells.foldl (addRoadBuildingStep grid entity) wa).inters = wa.inters := by
  induction cells generalizing wa with
  | nil => rfl
  | cons cell rest ih =>
    rw [List.foldl_cons, ih, addRoadBuildingStep_inters]

theorem buildScan_segShape (grid : Grid) (entity : Entity) (cells : List GridCell) (wa : World)
    (e2 : Entity) :
    segShape ((cells.foldl (addRoadBuildingStep grid entity) wa).segments e2) =
      segShape (wa.segments e2) := by
  induction cells generalizing wa with
  | nil => rfl
  | cons cell rest ih =>
    rw [List.foldl_cons, ih, addRoadBuildingStep_segShape]

theorem roadLinkInv_mono {grid : Grid} {entity : Entity} {area0 : GridArea}
    {processed processed2 : List GDir} {w : World}
    (hsub : ∀ g ∈ processed, g ∈ processed2)
    (hinv : roadLinkInv grid entity area0 processed w) :
    roadLinkInv grid entity area0 processed2 w := by
  intro i n seg2 h1 h2
  obtain ⟨g, hg, hrest⟩ := hinv i n seg2 h1 h2
  exact ⟨g, hsub g hg, hrest⟩

theorem buildScan_inv (grid : Grid) (entity : Entity) (area0 : GridArea)
    (processed : List GDir) (a : GridArea) (w : World)
    (hinv : roadLinkInv grid entity area0 processed w) :
    roadLinkInv grid entity area0 processed (addRoadBuildingScan grid entity a w) := by
  intro i n seg2 hs2 he2
  have hshape : segShape ((addRoadBuildingScan grid entity a w).segments entity) =
      segShape (w.segments entity) := buildScan_segShape grid entity a.cells w entity
  rw [hs2] at hshape
  cases hw : w.segments entity with
  | none =>
    rw [hw] at hshape
    exact absurd hshape (by simp [segShape])
  | some seg1 =>
    rw [hw] at hshape
    have hcomp : seg2.orientation = seg1.orientation ∧ seg2.area = seg1.area ∧
        seg2.ends = seg1.ends := by simpa [segShape] using hshape
    have hends := hcomp.2.2
    obtain ⟨g, hg, hbin, hsingle, inter2, hint, hroads⟩ :=
      hinv i n seg1 hw (by rw [← hends]; exact he2)
    refine ⟨g, hg, hbin, hsingle, inter2, ?_, hroads⟩
    rw [show (addRoadBuildingScan grid entity a w).inters = w.inters from
      buildScan_inters grid entity a.cells w]
    exact hint

theorem addRoadSideLink_none (grid : Grid) (entity : Entity) (a : GridArea) (g : GDir)
    (w : World) (h : grid.single_entity_in_area a = none) :
    addRoadSideLink grid entity a g w = w := by
  show (match grid.single_entity_in_area a with
    | some adj =>
      match w.inters adj with
      | some inter =>
        match w.segments entity with
        | some segment =>
          (w.setSegment entity
              { segment with ends := setIdx segment.ends g.binary_index (some adj) }).setInter
            adj { inter with roads := setIdx inter.roads g.inverse.index (some entity) }
        | none => w
      | none => w
    | none => w) = w
  rw [h]

theorem addRoadSideLink_noInter (grid : Grid) (entity : Entity) (a : GridArea) (g : GDir)
    (w : World) (adj : Entity) (hadj : grid.single_entity_in_area a = some adj)
    (hint : w.inters adj = none) : addRoadSideLink grid entity a g w = w := by
  show (match grid.single_entity_in_area a with
    | some adj =>
      match w.inters adj with
      | some inter =>
        match w.segments entity with
        | some segment =>
          (w.setSegment entity
              { segment with ends := setIdx segment.ends g.binary_index (some adj) }).setInter
            adj { inter with roads := setIdx inter.roads g.inverse.index (some entity) }
        | none => w
      | none => w
    | none => w) = w
  rw [hadj]
  show (match w.inters adj with
    | some inter =>
      match w.segments entity with
      | some segment =>
        (w.setSegment entity
            { segment with ends := setIdx segment.ends g.binary_index (some adj) }).setInter
          adj { inter with roads := setIdx inter.roads g.inverse.index (some entity) }
      | none => w
    | none => w) = w
  rw [hint]

theorem addRoadSideLink_noSeg (grid : Grid) (entity : Entity) (a : GridArea) (g : GDir)
    (w : World) (adj : Entity) (inter : Intersection)
    (hadj : grid.single_entity_in_area a = some adj) (hint : w.inters adj = some inter)
    (hseg : w.segments entity = none) : addRoadSideLink grid entity a g w = w := by
  show (match grid.single_entity_in_area a with
    | some adj =>
      match w.inters adj with
      | some inter =>
        match w.segments entity with
        | some segment =>
          (w.setSegment entity
              { segment with ends := setIdx segment.ends g.binary_index (some adj) }).setInter
            adj { inter with roads := setIdx inter.roads g.inverse.index (some entity) }
        | none => w
      | none => w
    | none => w) = w
  rw [hadj]
  show (match w.inters adj with
    | some inter =>
      match w.segments entity with
      | some segment =>
        (w.setSegment entity
            { segment with ends := setIdx segment.ends g.binary_index (some adj) }).setInter
          adj { inter with roads := setIdx inter.roads g.inverse.index (some entity) }
      | none => w
    | none => w) = w
  rw [hint]
  show (match w.segments entity with
    | some segment =>
      (w.setSegment entity
          { segment with ends := setIdx segment.ends g.binary_index (some adj) }).setInter
        adj { inter with roads := setIdx inter.roads g.inverse.index (some entity) }
    | none => w) = w
  rw [hseg]

theorem addRoadSideLink_link (grid : Grid) (entity : Entity) (a : GridArea) (g : GDir)
    (w : World) (adj : Entity) (inter : Intersection) (seg : RoadSegment)
    (hadj : grid.single_entity_in_area a = some adj) (hint : w.inters adj = some inter)
    (hseg : w.segments entity = some seg) :
    addRoadSideLink grid entity a g w =
      (w.setSegment entity
          { seg with ends := setIdx seg.ends g.binary_index (some adj) }).setInter adj
        { inter with roads := setIdx inter.roads g.inverse.index (some entity) } := by
  show (match grid.single_entity_in_area a with
    | some adj =>
      match w.inters adj with
      | some inter =>
        match w.segments entity with
        | some segment =>
          (w.setSegment entity
              { segment with ends := setIdx segment.ends g.binary_index (some adj) }).setInter
            adj { inter with roads := setIdx inter.roads g.inverse.index (some entity) }
        | none => w
      | none => w
    | none => w) = _
  rw [hadj]
  show (match w.inters adj with
    | some inter =>
      match w.segments entity with
      | some segment =>
        (w.setSegment entity
            { segment with ends := setIdx segment.ends g.binary_index (some adj) }).setInter
          adj { inter with roads := setIdx inter.roads g.inverse.index (some entity) }
      | none => w
    | none => w) = _
  rw [hint]
  show (match w.segments entity with
    | some segment =>
      (w.setSegment entity
          { segment with ends := setIdx segment.ends g.binary_index (some adj) }).setInter
        adj { inter with roads := setIdx inter.roads g.inverse.index (some entity) }
    | none => w) = _
  rw [hseg]

theorem addRoadSideLink_inv (grid : Grid) (entity : Entity) (area0 : GridArea)
    (processed : List GDir) (g0 : GDir) (w' : World)
    (hinv : roadLinkInv grid entity area0 processed w') :
    roadLinkInv grid entity area0 (g0 :: processed)
      (addRoadSideLink grid entity (area0.adjacent_area g0) g0 w') := by
  have hmono : roadLinkInv grid entity area0 (g0 :: processed) w' :=
    roadLinkInv_mono (fun g hg => List.mem_cons_of_mem _ hg) hinv
  cases hsing : grid.single_entity_in_area (area0.adjacent_area g0) with
  | none => rw [addRoadSideLink_none grid entity _ g0 w' hsing]; exact hmono
  | some adj =>
    cases hint : w'.inters adj with
    | none => rw [addRoadSideLink_noInter grid entity _ g0 w' adj hsing hint]; exact hmono
    | some inter =>
      cases hseg : w'.segments entity with
      | none => rw [addRoadSideLink_noSeg grid entity _ g0 w' adj inter hsing hint hseg]; exact hmono
      | some seg =>
        rw [addRoadSideLink_link grid entity _ g0 w' adj inter seg hsing hint hseg]
        intro i n seg2 hs2 he2
        rw [setInter_segments, setSegment_segments, if_pos rfl] at hs2
        have hseg2 : seg2 = { seg with ends := setIdx seg.ends g0.binary_index (some adj) } :=
          (Option.some.inj hs2).symm
        rw [hseg2] at he2
        by_cases hi : i = g0.binary_index
        · have hn : n = adj := by
            rw [show ({ seg with ends := setIdx seg.ends g0.binary_index (some adj) } :
                RoadSegment).ends i = setIdx seg.ends g0.binary_index (some adj) i from rfl,
              setIdx_eval, if_pos hi] at he2
            exact (Option.some.inj he2).symm
          subst hn
          refine ⟨g0, List.mem_cons_self _ _, hi.symm, hsing,
            { inter with roads := setIdx inter.roads g0.inverse.index (some entity) }, ?_, ?_⟩
          · rw [setInter_inters, if_pos rfl]
          · rw [show ({ inter with
                roads := setIdx inter.roads g0.inverse.index (some entity) } :
                Intersection).roads = setIdx inter.roads g0.inverse.index (some entity) from rfl,
              setIdx_eval, if_pos rfl]
        · have hends : seg.ends i = some n := by
            rw [show ({ seg with ends := setIdx seg.ends g0.binary_index (some adj) } :
                RoadSegment).ends i = setIdx seg.ends g0.binary_index (some adj) i from rfl,
              setIdx_eval, if_neg hi] at he2
            exact he2
          obtain ⟨g, hg, hbin, hsingle, inter0, hint0, hroads0⟩ := hinv i n seg hseg hends
          refine ⟨g, List.mem_cons_of_mem _ hg, hbin, hsingle, ?_⟩
          by_cases hn : n = adj
          · refine ⟨{ inter with roads := setIdx inter.roads g0.inverse.index (some entity) },
              ?_, ?_⟩
            · rw [setInter_inters, if_pos hn]
            · rw [show ({ inter with
                  roads := setIdx inter.roads g0.inverse.index (some entity) } :
                  Intersection).roads = setIdx inter.roads g0.inverse.index (some entity) from rfl,
                setIdx_eval]
              by_cases hgg : g.inverse.index = g0.inverse.index
              · rw [if_pos hgg]
              · rw [if_neg hgg]
                rw [hn] at hint0
                have hio : inter0 = inter := Option.some.inj (hint0.symm.trans hint)
                rw [← hio]
                exact hroads0
          · refine ⟨inter0, ?_, hroads0⟩
            rw [setInter_inters, if_neg hn]
            exact hint0

theorem addRoadSide_inv (grid : Grid) (entity : Entity) (area0 : GridArea)
    (processed : List GDir) (g0 : GDir) (w' : World)
    (hinv : roadLinkInv grid entity area0 processed w') :
    roadLinkInv grid entity area0 (g0 :: processed)
      (addRoadSide grid entity w' (area0.adjacent_area g0, g0)) := by
  exact buildScan_inv grid entity area0 (g0 :: processed) (area0.adjacent_area g0) _
    (addRoadSideLink_inv grid entity area0 processed g0 w' hinv)

/-- C2 (amended): processing one OnRoadSpawned event for a freshly spawned
segment (both end slots None) establishes reciprocal links: afterwards, every
end slot i of the segment holding an intersection n was set for a side
direction g with binary index i whose full adjacent strip is n, and
intersection n's roads slot at the inverse direction's index points back at
the segment.  The original claim's "exactly one roads[dir] slot" is refuted by
the counterexample: a later spawn event binding the same slot of n erases the
reciprocity of the earlier link. -/
theorem c2_add_road_reciprocal (grid : Grid) (w : World) (entity : Entity) (seg : RoadSegment)
    (hseg : w.segments entity = some seg) (hfresh : ∀ j, seg.ends j = none) :
    ∀ (i : Fin 2) (n : Entity) (seg2 : RoadSegment),
      (add_road_event grid w entity).segments entity = some seg2 → seg2.ends i = some n →
      ∃ g : GDir, g.binary_index = i ∧
        grid.single_entity_in_area (seg.area.adjacent_area g) = some n ∧
        ∃ inter2, (add_road_event grid w entity).inters n = some inter2 ∧
          inter2.roads g.inverse.index = some entity := by
  have hev : add_road_event grid w entity =
      seg.area.adjacent_areas.foldl (addRoadSide grid entity) w := by
    show (match w.segments entity with
      | some segment => segment.area.adjacent_areas.foldl (addRoadSide grid entity) w
      | none => w) = _
    rw [hseg]
  have h0 : roadLinkInv grid entity seg.area [] w := by
    intro i n seg2 hs2 he2
    rw [hseg] at hs2
    rw [(Option.some.inj hs2).symm, hfresh i] at he2
    exact absurd he2 (by simp)
  have h1 := addRoadSide_inv grid entity seg.area [] GDir.North w h0
  have h2 := addRoadSide_inv grid entity seg.area _ GDir.South _ h1
  have h3 := addRoadSide_inv grid entity seg.area _ GDir.West _ h2
  have h4 := addRoadSide_inv grid entity seg.area _ GDir.East _ h3
  intro i n seg2 hs2 he2
  rw [hev] at hs2
  rw [show seg.area.adjacent_areas =
      [(seg.area.adjacent_area GDir.North, GDir.North),
       (seg.area.adjacent_area GDir.South, GDir.South),
       (seg.area.adjacent_area GDir.West, GDir.West),
       (seg.area.adjacent_area GDir.East, GDir.East)] from rfl] at hs2
  simp only [List.foldl_cons, List.foldl_nil] at hs2
  obtain ⟨g, hg, hbin, hsingle, inter2, hint, hroads⟩ := h4 i n seg2 hs2 he2
  refine ⟨g, hbin, hsingle, inter2, ?_, hroads⟩
  rw [hev]
  rw [show seg.area.adjacent_areas =
      [(seg.area.adjacent_area GDir.North, GDir.North),
       (seg.area.adjacent_area GDir.South, GDir.South),
       (seg.area.adjacent_area GDir.West, GDir.West),
       (seg.area.adjacent_area GDir.East, GDir.East)] from rfl]
  simp only [List.foldl_cons, List.foldl_nil]
  exact hint

/-- Witness for the C2 reciprocity theorem: in the single-spawn scenario of
grid_c3, segment 5's end slot 0 ends up holding intersection 11, and the
theorem yields the side direction and the reciprocal slot pointing back. -/
theorem c2_add_road_reciprocal_witness :
    ∃ g : GDir, g.binary_index = (0 : Fin 2) ∧
      grid_c3.single_entity_in_area (areaR_c3.adjacent_area g) = some 11 ∧
      ∃ inter2, (add_road_event grid_c3 world_c3_init 5).inters 11 = some inter2 ∧
        inter2.roads g.inverse.index = some 5 := by
  have hproj : ((add_road_event grid_c3 world_c3_init 5).segments 5).map (fun s => s.ends 0) =
      some (some 11) := by decide
  cases hmatch : (add_road_event grid_c3 world_c3_init 5).segments 5 with
  | none => rw [hmatch] at hproj; exact absurd hproj (by simp)
  | some seg2 =>
    rw [hmatch] at hproj
    have hends : seg2.ends 0 = some 11 := by simpa using hproj
    exact c2_add_road_reciprocal grid_c3 world_c3_init 5 (RoadSegment.new areaR_c3 GAxis.Z)
      rfl (fun j => rfl) 0 11 seg2 hmatch hends

theorem exists_mem_pair {α : Type} {P : α → Prop} (r1 r2 : α) :
    (∃ r ∈ [r1] ++ [r2], P r) ↔ P r1 ∨ P r2 := by simp

theorem exists_mem_one {α : Type} {P : α → Prop} (r1 : α) :
    (∃ r ∈ [r1], P r) ↔ P r1 := by simp

theorem exists_mem_nil {α : Type} {P : α → Prop} :
    (∃ r ∈ ([] : List α), P r) ↔ False := by simp

/-- C6: splitting a segment at a perpendicular crossing (a split area spanning
the segment's width and contained in its length) destroys the original
segment, requests one intersection over the split area, and requests
replacement segments covering exactly the cells of the original area strictly
before and strictly after the split area — 0, 1, or 2 requests according to
whether the split touches both ends, one end, or neither. -/
theorem c6_split_roads (w : World) (entity : Entity) (segment : RoadSegment)
    (split_area : GridArea) (hseg : w.segments entity = some segment)
    (hswx : split_area.min.pos.x ≤ split_area.max.pos.x)
    (hswy : split_area.min.pos.y ≤ split_area.max.pos.y)
    (halignZ : segment.orientation = GAxis.Z →
      split_area.min.pos.x = segment.area.min.pos.x ∧
      split_area.max.pos.x = segment.area.max.pos.x ∧
      segment.area.min.pos.y ≤ split_area.min.pos.y ∧
      split_area.max.pos.y ≤ segment.area.max.pos.y)
    (halignX : segment.orientation = GAxis.X →
      split_area.min.pos.y = segment.area.min.pos.y ∧
      split_area.max.pos.y = segment.area.max.pos.y ∧
      segment.area.min.pos.x ≤ split_area.min.pos.x ∧
      split_area.max.pos.x ≤ segment.area.max.pos.x) :
    (split_road_event w entity split_area).2 = [entity] ∧
    (∀ r ∈ (split_road_event w entity split_area).1, r.orientation = segment.orientation) ∧
    (∀ c : GridCell,
      (∃ r ∈ (split_road_event w entity split_area).1, c ∈ r.area.cells) ↔
        (c ∈ segment.area.cells ∧ c ∉ split_area.cells)) ∧
    (segment.orientation = GAxis.Z →
      (split_road_event w entity split_area).1.length =
        (if segment.area.min.pos.y < split_area.min.pos.y then 1 else 0) +
        (if split_area.max.pos.y < segment.area.max.pos.y then 1 else 0)) ∧
    (segment.orientation = GAxis.X →
      (split_road_event w entity split_area).1.length =
        (if segment.area.min.pos.x < split_area.min.pos.x then 1 else 0) +
        (if split_area.max.pos.x < segment.area.max.pos.x then 1 else 0)) ∧
    spawn_intersections [⟨split_area⟩] = [Intersection.new split_area] := by
  have hev : split_road_event w entity split_area =
      (split_road_requests segment split_area, [entity]) := by
    show (match w.segments entity with
      | some segment => (split_road_requests segment split_area, [entity])
      | none => ([], [])) = _
    rw [hseg]
  rw [hev]
  cases horient : segment.orientation with
  | Z =>
    obtain ⟨ha1, ha2, ha3, ha4⟩ := halignZ horient
    have hreq : split_road_requests segment split_area =
        (if segment.area.min.pos.y < split_area.min.pos.y then
          [⟨GridArea.new segment.area.min
              (GridCell.new segment.area.max.pos.x split_area.adjacent_bottom.min.pos.y),
            segment.orientation⟩]
         else []) ++
        (if split_area.max.pos.y < segment.area.max.pos.y then
          [⟨GridArea.new (GridCell.new segment.area.min.pos.x split_area.adjacent_top.max.pos.y)
              segment.area.max,
            segment.orientation⟩]
         else []) := by
      show (match segment.orientation with
        | GAxis.Z => _
        | GAxis.X => _) = _
      rw [horient]
    rw [hreq]
    refine ⟨rfl, ?_, ?_, ?_, ?_, rfl⟩
    · intro r hr
      rcases List.mem_append.mp hr with hr1 | hr1 <;>
        [skip; skip] <;>
        · split at hr1
          · rcases List.mem_singleton.mp hr1 with rfl
            exact horient
          · exact absurd hr1 (List.not_mem_nil _)
    · intro c
      by_cases h1 : segment.area.min.pos.y < split_area.min.pos.y
      · by_cases h2 : split_area.max.pos.y < segment.area.max.pos.y
        · rw [if_pos h1, if_pos h2, exists_mem_pair]
          simp only [GridArea.mem_cells, GridArea.new, GridCell.new,
            GridArea.adjacent_bottom, GridArea.adjacent_top]
          omega
        · rw [if_pos h1, if_neg h2, List.append_nil, exists_mem_one]
          simp only [GridArea.mem_cells, GridArea.new, GridCell.new,
            GridArea.adjacent_bottom, GridArea.adjacent_top]
          omega
      · by_cases h2 : split_area.max.pos.y < segment.area.max.pos.y
        · rw [if_neg h1, if_pos h2, List.nil_append, exists_mem_one]
          simp only [GridArea.mem_cells, GridArea.new, GridCell.new,
            GridArea.adjacent_bottom, GridArea.adjacent_top]
          omega
        · rw [if_neg h1, if_neg h2, List.append_nil, exists_mem_nil, false_iff]
          simp only [GridArea.mem_cells]
          omega
    · intro _
      by_cases h1 : segment.area.min.pos.y < split_area.min.pos.y <;>
        by_cases h2 : split_area.max.pos.y < segment.area.max.pos.y <;>
          simp [h1, h2]
    · intro hx
      exact absurd hx (by simp)
  | X =>
    obtain ⟨ha1, ha2, ha3, ha4⟩ := halignX horient
    have hreq : split_road_requests segment split_area =
        (if segment.area.min.pos.x < split_area.min.pos.x then
          [⟨GridArea.new segment.area.min
              (GridCell.new split_area.adjacent_left.min.pos.x segment.area.max.pos.y),
            segment.orientation⟩]
         else []) ++
        (if split_area.max.pos.x < segment.area.max.pos.x then
          [⟨GridArea.new (GridCell.new split_area.adjacent_right.max.pos.x segment.area.min.pos.y)
              segment.area.max,
            segment.orientation⟩]
         else []) := by
      show (match segment.orientation with
        | GAxis.Z => _
        | GAxis.X => _) = _
      rw [horient]
    rw [hreq]
    refine ⟨rfl, ?_, ?_, ?_, ?_, rfl⟩
    · intro r hr
      rcases List.mem_append.mp hr with hr1 | hr1 <;>
        [skip; skip] <;>
        · split at hr1
          · rcases List.mem_singleton.mp hr1 with rfl
            exact horient
          · exact absurd hr1 (List.not_mem_nil _)
    · intro c
      by_cases h1 : segment.area.min.pos.x < split_area.min.pos.x
      · by_cases h2 : split_area.max.pos.x < segment.area.max.pos.x
        · rw [if_pos h1, if_pos h2, exists_mem_pair]
          simp only [GridArea.mem_cells, GridArea.new, GridCell.new,
            GridArea.adjacent_left, GridArea.adjacent_right]
          omega
        · rw [if_pos h1, if_neg h2, List.append_nil, exists_mem_one]
          simp only [GridArea.mem_cells, GridArea.new, GridCell.new,
            GridArea.adjacent_left, GridArea.adjacent_right]
          omega
      · by_cases h2 : split_area.max.pos.x < segment.area.max.pos.x
        · rw [if_neg h1, if_pos h2, List.nil_append, exists_mem_one]
          simp only [GridArea.mem_cells, GridArea.new, GridCell.new,
            GridArea.adjacent_left, GridArea.adjacent_right]
          omega
        · rw [if_neg h1, if_neg h2, List.append_nil, exists_mem_nil, false_iff]
          simp only [GridArea.mem_cells]
          omega
    · intro hz
      exact absurd hz (by simp)
    · intro _
      by_cases h1 : segment.area.min.pos.x < split_area.min.pos.x <;>
        by_cases h2 : split_area.max.pos.x < segment.area.max.pos.x <;>
          simp [h1, h2]

/-- Witness for C6: splitting the 2x6 segment across its middle destroys it
and requests exactly two replacement segments. -/
theorem c6_split_roads_witness :
    (split_road_event w_c6wit 7 (GridArea.new (GridCell.new 0 2) (GridCell.new 1 3))).2 = [7] ∧
    (split_road_event w_c6wit 7
      (GridArea.new (GridCell.new 0 2) (GridCell.new 1 3))).1.length = 2 := by
  have h := c6_split_roads w_c6wit 7
    (RoadSegment.new (GridArea.new (GridCell.new 0 0) (GridCell.new 1 5)) GAxis.Z)
    (GridArea.new (GridCell.new 0 2) (GridCell.new 1 3)) rfl (by decide) (by decide)
    (fun _ => ⟨rfl, rfl, by decide, by decide⟩) (fun hx => absurd hx (by decide))
  refine ⟨h.1, ?_⟩
  have hlen := h.2.2.2.1 rfl
  rw [hlen]
  decide

/-- C7 counterexample: for a straight-through step on a minimum-width road
(drive width 2, a single lane), the claimed clamp interval
[0, num_lanes - 2] = [0, -1] is empty, yet the function returns lane 0 — the
code clamps into [0, max(num_lanes - 2, 0)], not [0, num_lanes - 2]. -/
theorem c7_counterexample :
    get_lane_for_turn
        (RoadSegment.new (GridArea.new (GridCell.new 0 0) (GridCell.new 1 3)) GAxis.Z)
        (RoadSegment.new (GridArea.new (GridCell.new 0 4) (GridCell.new 1 7)) GAxis.Z)
        (RoadSegment.new (GridArea.new (GridCell.new 0 0) (GridCell.new 1 3)) GAxis.Z) 5 = 0 ∧
    ¬(get_lane_for_turn
        (RoadSegment.new (GridArea.new (GridCell.new 0 0) (GridCell.new 1 3)) GAxis.Z)
        (RoadSegment.new (GridArea.new (GridCell.new 0 4) (GridCell.new 1 7)) GAxis.Z)
        (RoadSegment.new (GridArea.new (GridCell.new 0 0) (GridCell.new 1 3)) GAxis.Z) 5 ≤
      (RoadSegment.new (GridArea.new (GridCell.new 0 0) (GridCell.new 1 3))
          GAxis.Z).num_lanes - 2) := by
  constructor
  · decide
  · decide

/-- C7 (amended): for a straight-through step (equal orientations) the result
is prev_lane clamped into [0, max(num_lanes - 2, 0)] of the clamp segment
(equal to the claimed [0, num_lanes - 2] whenever num_lanes ≥ 2); for a turn
(differing orientations) the result is either the outermost lane
(num_lanes - 1) or the innermost lane (0) of the clamp segment, and it depends
only on the orientations and the two center-delta sign bits — not on
prev_lane or any other data. -/
theorem c7_get_lane_for_turn (curr next clamp : RoadSegment) (prev : Int) :
    (curr.orientation = next.orientation →
      get_lane_for_turn curr next clamp prev = clampInt prev 0 (max (clamp.num_lanes - 2) 0) ∧
      (2 ≤ clamp.num_lanes →
        get_lane_for_turn curr next clamp prev = clampInt prev 0 (clamp.num_lanes - 2))) ∧
    (curr.orientation ≠ next.orientation →
      (get_lane_for_turn curr next clamp prev = clamp.num_lanes - 1 ∨
       get_lane_for_turn curr next clamp prev = 0) ∧
      (∀ (curr2 next2 : RoadSegment) (prev2 : Int),
        curr2.orientation = curr.orientation → next2.orientation = next.orientation →
        ((next2.area.center_z < curr2.area.center_z) ↔
          (next.area.center_z < curr.area.center_z)) →
        ((next2.area.center_x < curr2.area.center_x) ↔
          (next.area.center_x < curr.area.center_x)) →
        get_lane_for_turn curr2 next2 clamp prev2 = get_lane_for_turn curr next clamp prev)) := by
  constructor
  · intro ho
    have hbase : get_lane_for_turn curr next clamp prev =
        clampInt prev 0 (max (clamp.num_lanes - 2) 0) := by
      unfold get_lane_for_turn
      rw [if_pos ho]
    refine ⟨hbase, fun h2 => ?_⟩
    rw [hbase]
    rw [max_eq_left (by omega : (0 : Int) ≤ clamp.num_lanes - 2)]
  · intro ho
    constructor
    · unfold get_lane_for_turn
      rw [if_neg ho]
      by_cases hno : next.orientation = GAxis.X
      · rw [if_pos hno]
        by_cases hz : next.area.center_z < curr.area.center_z <;>
          by_cases hx : next.area.center_x < curr.area.center_x <;>
            simp [hz, hx]
      · rw [if_neg hno]
        by_cases hz : next.area.center_z < curr.area.center_z <;>
          by_cases hx : next.area.center_x < curr.area.center_x <;>
            simp [hz, hx]
    · intro curr2 next2 prev2 hc2 hn2 hziff hxiff
      have ho2 : ¬(curr2.orientation = next2.orientation) := by
        rw [hc2, hn2]; exact ho
      unfold get_lane_for_turn
      rw [if_neg ho, if_neg ho2, hn2]
      by_cases hno : next.orientation = GAxis.X
      · rw [if_pos hno, if_pos hno]
        by_cases hz : next.area.center_z < curr.area.center_z
        · rw [if_pos (hziff.mpr hz), if_pos hz]
          by_cases hx : next.area.center_x < curr.area.center_x
          · rw [if_pos (hxiff.mpr hx), if_pos hx]
          · rw [if_neg (fun h => hx (hxiff.mp h)), if_neg hx]
        · rw [if_neg (fun h => hz (hziff.mp h)), if_neg hz]
          by_cases hx : next.area.center_x < curr.area.center_x
          · rw [if_pos (hxiff.mpr hx), if_pos hx]
          · rw [if_neg (fun h => hx (hxiff.mp h)), if_neg hx]
      · rw [if_neg hno, if_neg hno]
        by_cases hx : next.area.center_x < curr.area.center_x
        · rw [if_pos (hxiff.mpr hx), if_pos hx]
          by_cases hz : next.area.center_z < curr.area.center_z
          · rw [if_pos (hziff.mpr hz), if_pos hz]
          · rw [if_neg (fun h => hz (hziff.mp h)), if_neg hz]
        · rw [if_neg (fun h => hx (hxiff.mp h)), if_neg hx]
          by_cases hz : next.area.center_z < curr.area.center_z
          · rw [if_pos (hziff.mpr hz), if_pos hz]
          · rw [if_neg (fun h => hz (hziff.mp h)), if_neg hz]

/-- Witness for C7: a straight-through step on a 6-wide (3-lane) road clamps
prev_lane 5 into [0, 1], giving lane 1. -/
theorem c7_get_lane_for_turn_witness :
    get_lane_for_turn
      (RoadSegment.new (GridArea.new (GridCell.new 0 0) (GridCell.new 5 5)) GAxis.Z)
      (RoadSegment.new (GridArea.new (GridCell.new 0 6) (GridCell.new 5 9)) GAxis.Z)
      (RoadSegment.new (GridArea.new (GridCell.new 0 0) (GridCell.new 5 5)) GAxis.Z) 5 = 1 := by
  have h := (c7_get_lane_for_turn
    (RoadSegment.new (GridArea.new (GridCell.new 0 0) (GridCell.new 5 5)) GAxis.Z)
    (RoadSegment.new (GridArea.new (GridCell.new 0 6) (GridCell.new 5 9)) GAxis.Z)
    (RoadSegment.new (GridArea.new (GridCell.new 0 0) (GridCell.new 5 5)) GAxis.Z) 5).1 rfl
  rw [h.2 (by decide)]
  decide

theorem mem_insertSet_self (x : Entity) (l : List Entity) : x ∈ insertSet x l := by
  unfold insertSet
  by_cases h : x ∈ l
  · rw [if_pos h]; exact h
  · rw [if_neg h]; exact List.mem_cons_self _ _

theorem mem_insertSet_of_mem (x y : Entity) (l : List Entity) (h : y ∈ l) :
    y ∈ insertSet x l := by
  unfold insertSet
  by_cases hx : x ∈ l
  · rw [if_pos hx]; exact h
  · rw [if_neg hx]; exact List.mem_cons_of_mem _ h

theorem lookup_mem {pm : List (Entity × Entity)} {c p : Entity}
    (h : pm.lookup c = some p) : (c, p) ∈ pm := by
  induction pm with
  | nil => exact absurd h (by simp)
  | cons hd tl ih =>
    obtain ⟨k, v⟩ := hd
    by_cases hk : c = k
    · have hb : (c == k) = true := by simpa using hk
      have hstep : List.lookup c ((k, v) :: tl) = some v := by
        simp [List.lookup, hb]
      rw [hstep] at h
      rw [hk, ← Option.some.inj h]
      exact List.mem_cons_self _ _
    · have hb : (c == k) = false := by simpa using hk
      have hstep : List.lookup c ((k, v) :: tl) = List.lookup c tl := by
        simp [List.lookup, hb]
      rw [hstep] at h
      exact List.mem_cons_of_mem _ (ih h)

theorem segPushStep_pmOk (w : World) (curr : Entity) (edge : RoadSegment)
    (visited1 : List Entity) (hcurr : w.segments curr = some edge)
    (st : List Entity × List (Entity × Entity)) (c : Fin 2) (h : PmOk w st.2) :
    PmOk w ((segPushStep w curr edge visited1 st c).2) := by
  unfold segPushStep
  cases hc : edge.ends c with
  | none => exact h
  | some ep =>
    show PmOk w ((match w.inters ep with
      | some _ => if ep ∈ visited1 then st else (ep :: st.1, (ep, curr) :: st.2)
      | none => st).2)
    cases hi : w.inters ep with
    | none => exact h
    | some node =>
      show PmOk w ((if ep ∈ visited1 then st else (ep :: st.1, (ep, curr) :: st.2)).2)
      by_cases hv : ep ∈ visited1
      · rw [if_pos hv]; exact h
      · rw [if_neg hv]
        intro pr hpr
        rcases List.mem_cons.mp hpr with rfl | h2
        · exact Or.inr (Or.inl ⟨edge, hcurr, Or.inr ⟨c, hc⟩⟩)
        · exact h pr h2

theorem segPushFold_pmOk (w : World) (curr : Entity) (edge : RoadSegment)
    (visited1 : List Entity) (hcurr : w.segments curr = some edge) (idxs : List (Fin 2)) :
    ∀ (st : List Entity × List (Entity × Entity)), PmOk w st.2 →
      PmOk w ((idxs.foldl (segPushStep w curr edge visited1) st).2) := by
  induction idxs with
  | nil => intro st h; exact h
  | cons c rest ih =>
    intro st h
    rw [List.foldl_cons]
    exact ih _ (segPushStep_pmOk w curr edge visited1 hcurr st c h)

theorem interPushStep_pmOk (w : World) (curr : Entity) (node : Intersection)
    (visited1 : List Entity) (hcurr : w.inters curr = some node)
    (st : List Entity × List (Entity × Entity)) (c : Fin 4) (h : PmOk w st.2) :
    PmOk w ((interPushStep w curr node visited1 st c).2) := by
  unfold interPushStep
  cases hc : node.roads c with
  | none => exact h
  | some road =>
    show PmOk w ((if road ∈ visited1 then st else (road :: st.1, (road, curr) :: st.2)).2)
    by_cases hv : road ∈ visited1
    · rw [if_pos hv]; exact h
    · rw [if_neg hv]
      intro pr hpr
      rcases List.mem_cons.mp hpr with rfl | h2
      · exact Or.inr (Or.inr ⟨node, hcurr, ⟨c, hc⟩⟩)
      · exact h pr h2

theorem interPushFold_pmOk (w : World) (curr : Entity) (node : Intersection)
    (visited1 : List Entity) (hcurr : w.inters curr = some node) (idxs : List (Fin 4)) :
    ∀ (st : List Entity × List (Entity × Entity)), PmOk w st.2 →
      PmOk w ((idxs.foldl (interPushStep w curr node visited1) st).2) := by
  induction idxs with
  | nil => intro st h; exact h
  | cons c rest ih =>
    intro st h
    rw [List.foldl_cons]
    exact ih _ (interPushStep_pmOk w curr node visited1 hcurr st c h)

theorem searchLoop_pmOk (w : World) (eo : Nat → List (Fin 2)) (ro : Nat → List (Fin 4))
    (end_ : Entity) :
    ∀ (fuel : Nat) (frontier visited : List Entity) (pm pm2 : List (Entity × Entity)),
      PmOk w pm → searchLoop w eo ro end_ fuel frontier visited pm = some pm2 →
      PmOk w pm2 := by
  intro fuel
  induction fuel with
  | zero =>
    intro fr vis pm pm2 _ hres
    exact absurd hres (by simp [searchLoop])
  | succ fuel ih =>
    intro frontier visited pm pm2 hpm hres
    cases frontier with
    | nil => exact absurd hres (by simp [searchLoop])
    | cons curr rest =>
      simp only [searchLoop] at hres
      cases hb : w.buildings curr with
      | some dest =>
        simp only [hb] at hres
        by_cases hce : curr = end_
        · rw [if_pos hce] at hres
          rw [← Option.some.inj hres]
          exact hpm
        · rw [if_neg hce] at hres
          cases hroads : dest.roads with
          | nil =>
            simp only [hroads] at hres
            exact ih _ _ _ _ hpm hres
          | cons r rtail =>
            simp only [hroads] at hres
            refine ih _ _ _ _ ?_ hres
            intro pr hpr
            rcases List.mem_cons.mp hpr with rfl | h2
            · exact Or.inl ⟨dest, hb, by rw [hroads]; exact List.mem_cons_self _ _⟩
            · exact hpm pr h2
      | none =>
        simp only [hb] at hres
        cases hs : w.segments curr with
        | some edge =>
          simp only [hs] at hres
          by_cases hd : end_ ∈ edge.dests
          · rw [if_pos hd] at hres
            refine ih _ _ _ _ ?_ hres
            intro pr hpr
            rcases List.mem_cons.mp hpr with rfl | h2
            · exact Or.inr (Or.inl ⟨edge, hs, Or.inl hd⟩)
            · exact hpm pr h2
          · rw [if_neg hd] at hres
            exact ih _ _ _ _
              (segPushFold_pmOk w curr edge _ hs (eo fuel) (rest, pm) hpm) hres
        | none =>
          simp only [hs] at hres
          cases hi : w.inters curr with
          | some node =>
            simp only [hi] at hres
            exact ih _ _ _ _
              (interPushFold_pmOk w curr node _ hi (ro fuel) (rest, pm) hpm) hres
          | none =>
            simp only [hi] at hres
            exact ih _ _ _ _ hpm hres

theorem reconstructPath_props (pm : List (Entity × Entity)) (start : Entity) :
    ∀ (fuel : Nat) (curr : Entity) (l : List Entity),
      reconstructPath pm start fuel curr = some l →
      l.head? = some start ∧ l.getLast? = some curr ∧ 1 ≤ l.length := by
  intro fuel
  induction fuel with
  | zero => intro curr l h; exact absurd h (by simp [reconstructPath])
  | succ fuel ih =>
    intro curr l h
    simp only [reconstructPath] at h
    by_cases hc : curr = start
    · rw [if_pos hc] at h
      rw [← Option.some.inj h]
      refine ⟨rfl, ?_, by simp⟩
      simp [hc]
    · rw [if_neg hc] at h
      cases hp : pm.lookup curr with
      | none =>
        simp only [hp] at h
        exact absurd h (by simp)
      | some p =>
        simp only [hp] at h
        cases hr : reconstructPath pm start fuel p with
        | none => rw [hr] at h; exact absurd h (by simp)
        | some l0 =>
          rw [hr] at h
          have hl : l = l0 ++ [curr] := by
            have hx : l0 ++ [curr] = l := by simpa using h
            exact hx.symm
          obtain ⟨h1, h2, h3⟩ := ih p l0 hr
          subst hl
          refine ⟨?_, ?_, ?_⟩
          · cases l0 with
            | nil => simp at h1
            | cons a t =>
              simp only [List.cons_append, List.head?_cons] at h1 ⊢
              exact h1
          · simp
          · simp

theorem reconstructPath_chain (w : World) (pm : List (Entity × Entity)) (hpm : PmOk w pm)
    (start : Entity) :
    ∀ (fuel : Nat) (curr : Entity) (l : List Entity),
      reconstructPath pm start fuel curr = some l → List.Chain' (GraphAdj w) l := by
  intro fuel
  induction fuel with
  | zero => intro curr l h; exact absurd h (by simp [reconstructPath])
  | succ fuel ih =>
    intro curr l h
    simp only [reconstructPath] at h
    by_cases hc : curr = start
    · rw [if_pos hc] at h
      rw [← Option.some.inj h]
      simp
    · rw [if_neg hc] at h
      cases hp : pm.lookup curr with
      | none =>
        simp only [hp] at h
        exact absurd h (by simp)
      | some p =>
        simp only [hp] at h
        cases hr : reconstructPath pm start fuel p with
        | none => rw [hr] at h; exact absurd h (by simp)
        | some l0 =>
          rw [hr] at h
          have hl : l = l0 ++ [curr] := by
            have hx : l0 ++ [curr] = l := by simpa using h
            exact hx.symm
          subst hl
          obtain ⟨-, h2, -⟩ := reconstructPath_props pm start fuel p l0 hr
          refine List.chain'_append.mpr ⟨ih p l0 hr, List.chain'_singleton _, ?_⟩
          intro x hx y hy
          rw [h2] at hx
          have hxp : p = x := by simpa using hx
          have hyc : curr = y := by simpa using hy
          rw [← hxp, ← hyc]
          exact hpm (curr, p) (lookup_mem hp)

theorem chain'_connected (w : World) :
    ∀ (l : List Entity) (a b : Entity), l.head? = some a → l.getLast? = some b →
      List.Chain' (GraphAdj w) l → Connected w a b := by
  intro l
  induction l with
  | nil => intro a b hh; exact absurd hh (by simp)
  | cons x t ih =>
    intro a b hh hl hc
    have hxa : x = a := by simpa using hh
    subst hxa
    cases t with
    | nil =>
      have hxb : x = b := by simpa using hl
      rw [← hxb]
      exact Relation.ReflTransGen.refl
    | cons y t2 =>
      have hadj : GraphAdj w x y := (List.chain'_cons.mp hc).1
      have hrest : List.Chain' (GraphAdj w) (y :: t2) := (List.chain'_cons.mp hc).2
      have hlast : (y :: t2).getLast? = some b := by
        rw [← hl]
        exact List.getLast?_cons_cons.symm
      exact Relation.ReflTransGen.head (Or.inl hadj) (ih y b rfl hlast hrest)

/-- C1 (amended): whenever spawn_vehicle's search returns a path, its
consecutive elements are graph-adjacent, it starts at the chosen start
Building and ends at the chosen destination Building; consequently, when
start and destination lie in disconnected components the search returns no
path and no vehicle is spawned.  The original claim's converse — that a
connected graph guarantees a path — is refuted by the counterexample: from a
non-destination building only ONE arbitrarily-picked connected road is
explored, so a connected graph can still yield NoPathFound. -/
theorem c1_spawn_vehicle_path (w : World) (eo : Nat → List (Fin 2)) (ro : Nat → List (Fin 4))
    (start end_ : Entity) (fuel : Nat) :
    (∀ p, spawn_vehicle_path w eo ro start end_ fuel = some p →
      p.head? = some start ∧ p.getLast? = some end_ ∧ List.Chain' (GraphAdj w) p) ∧
    (¬ Connected w start end_ → spawn_vehicle_path w eo ro start end_ fuel = none) := by
  have hmain : ∀ p, spawn_vehicle_path w eo ro start end_ fuel = some p →
      p.head? = some start ∧ p.getLast? = some end_ ∧ List.Chain' (GraphAdj w) p := by
    intro p hp
    unfold spawn_vehicle_path at hp
    cases hsearch : searchLoop w eo ro end_ fuel [start] [] [] with
    | none => rw [hsearch] at hp; exact absurd hp (by simp)
    | some pm =>
      rw [hsearch] at hp
      have hpm : PmOk w pm :=
        searchLoop_pmOk w eo ro end_ fuel [start] [] [] pm (by intro pr hpr; simp at hpr)
          hsearch
      obtain ⟨h1, h2, -⟩ := reconstructPath_props pm start fuel end_ p hp
      exact ⟨h1, h2, reconstructPath_chain w pm hpm start fuel end_ p hp⟩
  refine ⟨hmain, ?_⟩
  intro hnc
  cases hres : spawn_vehicle_path w eo ro start end_ fuel with
  | none => rfl
  | some p =>
    obtain ⟨h1, h2, h3⟩ := hmain p hres
    exact absurd (chain'_connected w p start end_ h1 h2 h3) hnc

/-- C1 counterexample: buildings 0 and 1 are connected through road 3, yet the
search returns NoPathFound (hence no vehicle is spawned), because from start
building 0 it pushes only the first road of the set — the dead end 2 — and
the frontier then runs dry. -/
theorem c1_counterexample :
    Connected world_c1 0 1 ∧
    spawn_vehicle_path world_c1 (fun _ => [0, 1]) (fun _ => [0, 1, 2, 3]) 0 1 100 = none := by
  constructor
  · have h03 : SymAdj world_c1 0 3 := Or.inl (Or.inl ⟨_, rfl, by decide⟩)
    have h31 : SymAdj world_c1 3 1 := Or.inl (Or.inr (Or.inl ⟨_, rfl, Or.inl (by decide)⟩))
    exact Relation.ReflTransGen.head h03 (Relation.ReflTransGen.single h31)
  · decide

/-- Witness for C1: the search finds the path [0, 2, 1] and the theorem
certifies its endpoints and adjacency. -/
theorem c1_spawn_vehicle_path_witness :
    ([0, 2, 1] : List Entity).head? = some 0 ∧
    ([0, 2, 1] : List Entity).getLast? = some 1 ∧
    List.Chain' (GraphAdj world_c1wit) [0, 2, 1] :=
  (c1_spawn_vehicle_path world_c1wit (fun _ => [0, 1]) (fun _ => [0, 1, 2, 3]) 0 1 10).1
    [0, 2, 1] (by decide)

/-- C10: every path spawn_vehicle attaches to a vehicle (for two distinct
chosen buildings) has length at least 2, starts at the chosen start Building
and ends at the chosen destination Building; hence path.len() - 1 ≥ 1 and the
path-end despawn check in update_vehicles is well-defined. -/
theorem c10_spawn_vehicle_path_len (w : World) (eo : Nat → List (Fin 2))
    (ro : Nat → List (Fin 4)) (start end_ : Entity) (fuel : Nat) (hne : start ≠ end_) :
    ∀ p, spawn_vehicle_path w eo ro start end_ fuel = some p →
      2 ≤ p.length ∧ p.head? = some start ∧ p.getLast? = some end_ ∧ 1 ≤ p.length - 1 := by
  intro p hp
  unfold spawn_vehicle_path at hp
  cases hsearch : searchLoop w eo ro end_ fuel [start] [] [] with
  | none => rw [hsearch] at hp; exact absurd hp (by simp)
  | some pm =>
    rw [hsearch] at hp
    obtain ⟨h1, h2, -⟩ := reconstructPath_props pm start fuel end_ p hp
    cases fuel with
    | zero => exact absurd hp (by simp [reconstructPath])
    | succ fuel =>
      simp only [reconstructPath] at hp
      rw [if_neg (fun h => hne h.symm)] at hp
      cases hlk : pm.lookup end_ with
      | none =>
        simp only [hlk] at hp
        exact absurd hp (by simp)
      | some q =>
        simp only [hlk] at hp
        cases hr : reconstructPath pm start fuel q with
        | none => rw [hr] at hp; exact absurd hp (by simp)
        | some l0 =>
          rw [hr] at hp
          have hl : p = l0 ++ [end_] := by
            have hx : l0 ++ [end_] = p := by simpa using hp
            exact hx.symm
          obtain ⟨-, -, hlen0⟩ := reconstructPath_props pm start fuel q l0 hr
          subst hl
          refine ⟨?_, h1, h2, ?_⟩
          · simp only [List.length_append, List.length_singleton]
            omega
          · simp only [List.length_append, List.length_singleton]
            omega

/-- Witness for C10: the concrete path found in world_c1wit has length 3 ≥ 2
with the chosen endpoints. -/
theorem c10_spawn_vehicle_path_len_witness :
    2 ≤ ([0, 2, 1] : List Entity).length ∧
    ([0, 2, 1] : List Entity).head? = some 0 ∧
    ([0, 2, 1] : List Entity).getLast? = some 1 ∧
    1 ≤ ([0, 2, 1] : List Entity).length - 1 :=
  c10_spawn_vehicle_path_len world_c1wit (fun _ => [0, 1]) (fun _ => [0, 1, 2, 3]) 0 1 10
    (by decide) [0, 2, 1] (by decide)

theorem registerStep_building (v : Entity) (wa : World) (s b : Entity)
    (h : wa.buildings s = none) : (registerStep v wa s).buildings b = wa.buildings b := by
  unfold registerStep
  cases hb : wa.buildings s with
  | some bld =>
    rw [hb] at h
    exact absurd h (by simp)
  | none =>
    show ((match wa.segments s with
      | some sg => wa.setSegment s { sg with observers := insertSet v sg.observers }
      | none =>
        match wa.inters s with
        | some i => wa.setInter s { i with observers := insertSet v i.observers }
        | none => wa).buildings b) = wa.buildings b
    cases wa.segments s with
    | some sg => rfl
    | none =>
      show ((match wa.inters s with
        | some i => wa.setInter s { i with observers := insertSet v i.observers }
        | none => wa).buildings b) = wa.buildings b
      cases wa.inters s with
      | some i => rfl
      | none => rfl

theorem registerStep_segments (v : Entity) (wa : World) (s e : Entity)
    (h : wa.segments e = none) : (registerStep v wa s).segments e = none := by
  unfold registerStep
  cases wa.buildings s with
  | some bld =>
    show (wa.setBuilding s _).segments e = none
    exact h
  | none =>
    show ((match wa.segments s with
      | some sg => wa.setSegment s { sg with observers := insertSet v sg.observers }
      | none =>
        match wa.inters s with
        | some i => wa.setInter s { i with observers := insertSet v i.observers }
        | none => wa).segments e)= none
    cases hs : wa.segments s with
    | some sg =>
      show (if e = s then some _ else wa.segments e) = none
      rw [if_neg, h]
      rintro rfl
      rw [h] at hs
      exact absurd hs (by simp)
    | none =>
      show ((match wa.inters s with
        | some i => wa.setInter s { i with observers := insertSet v i.observers }
        | none => wa).segments e) = none
      cases wa.inters s with
      | some i => exact h
      | none => exact h

theorem registerStep_buildings_none (v : Entity) (wa : World) (s e : Entity)
    (h : wa.buildings e = none) : (registerStep v wa s).buildings e = none := by
  unfold registerStep
  cases hb : wa.buildings s with
  | some bld =>
    show (if e = s then some _ else wa.buildings e) = none
    rw [if_neg, h]
    rintro rfl
    rw [h] at hb
    exact absurd hb (by simp)
  | none =>
    show ((match wa.segments s with
      | some sg => wa.setSegment s { sg with observers := insertSet v sg.observers }
      | none =>
        match wa.inters s with
        | some i => wa.setInter s { i with observers := insertSet v i.observers }
        | none => wa).buildings e) = none
    cases wa.segments s with
    | some sg => exact h
    | none =>
      show ((match wa.inters s with
        | some i => wa.setInter s { i with observers := insertSet v i.observers }
        | none => wa).buildings e) = none
      cases wa.inters s with
      | some i => exact h
      | none => exact h

theorem registerStep_inters_observer (v : Entity) (wa : World) (s e : Entity)
    (i0 : Intersection) (hw : wa.inters e = some i0) (hv : v ∈ i0.observers) :
    ∃ i1, (registerStep v wa s).inters e = some i1 ∧ v ∈ i1.observers := by
  unfold registerStep
  cases wa.buildings s with
  | some bld => exact ⟨i0, hw, hv⟩
  | none =>
    show ∃ i1, ((match wa.segments s with
      | some sg => wa.setSegment s { sg with observers := insertSet v sg.observers }
      | none =>
        match wa.inters s with
        | some i => wa.setInter s { i with observers := insertSet v i.observers }
        | none => wa).inters e) = some i1 ∧ v ∈ i1.observers
    cases wa.segments s with
    | some sg => exact ⟨i0, hw, hv⟩
    | none =>
      show ∃ i1, ((match wa.inters s with
        | some i => wa.setInter s { i with observers := insertSet v i.observers }
        | none => wa).inters e) = some i1 ∧ v ∈ i1.observers
      cases hi : wa.inters s with
      | none => exact ⟨i0, hw, hv⟩
      | some i =>
        show ∃ i1, (if e = s then some { i with observers := insertSet v i.observers }
          else wa.inters e) = some i1 ∧ v ∈ i1.observers
        by_cases he : e = s
        · rw [if_pos he]
          exact ⟨_, rfl, mem_insertSet_of_mem v v i.observers (by
            rw [he] at hw
            rw [hw] at hi
            rw [← Option.some.inj hi]
            exact hv)⟩
        · rw [if_neg he]
          exact ⟨i0, hw, hv⟩

theorem registerStep_establishes (v : Entity) (wa : World) (e : Entity) (i0 : Intersection)
    (hb : wa.buildings e = none) (hs : wa.segments e = none) (hw : wa.inters e = some i0) :
    ∃ i1, (registerStep v wa e).inters e = some i1 ∧ v ∈ i1.observers := by
  unfold registerStep
  rw [hb]
  show ∃ i1, ((match wa.segments e with
    | some sg => wa.setSegment e { sg with observers := insertSet v sg.observers }
    | none =>
      match wa.inters e with
      | some i => wa.setInter e { i with observers := insertSet v i.observers }
      | none => wa).inters e) = some i1 ∧ v ∈ i1.observers
  rw [hs]
  show ∃ i1, ((match wa.inters e with
    | some i => wa.setInter e { i with observers := insertSet v i.observers }
    | none => wa).inters e) = some i1 ∧ v ∈ i1.observers
  rw [hw]
  show ∃ i1, (if e = e then some { i0 with observers := insertSet v i0.observers }
    else wa.inters e) = some i1 ∧ v ∈ i1.observers
  rw [if_pos rfl]
  exact ⟨_, rfl, mem_insertSet_self v i0.observers⟩

theorem regFold_keeps (v : Entity) (e : Entity) :
    ∀ (path : List Entity) (wa : World) (i0 : Intersection),
      wa.inters e = some i0 → v ∈ i0.observers →
      ∃ i1, (path.foldl (registerStep v) wa).inters e = some i1 ∧ v ∈ i1.observers := by
  intro path
  induction path with
  | nil => intro wa i0 hw hv; exact ⟨i0, hw, hv⟩
  | cons s rest ih =>
    intro wa i0 hw hv
    rw [List.foldl_cons]
    obtain ⟨i1, h1, hv1⟩ := registerStep_inters_observer v wa s e i0 hw hv
    exact ih (registerStep v wa s) i1 h1 hv1

theorem regFold_observer (v : Entity) (e : Entity) :
    ∀ (path : List Entity) (wa : World), e ∈ path →
      wa.buildings e = none → wa.segments e = none →
      ∀ i0, wa.inters e = some i0 →
      ∃ i1, (path.foldl (registerStep v) wa).inters e = some i1 ∧ v ∈ i1.observers := by
  intro path
  induction path with
  | nil => intro wa hmem; exact absurd hmem (List.not_mem_nil _)
  | cons s rest ih =>
    intro wa hmem hb hs i0 hw
    rw [List.foldl_cons]
    by_cases hse : s = e
    · subst hse
      obtain ⟨i1, h1, hv1⟩ := registerStep_establishes v wa s i0 hb hs hw
      exact regFold_keeps v s rest (registerStep v wa s) i1 h1 hv1
    · have hmem2 : e ∈ rest := by
        rcases List.mem_cons.mp hmem with h | h
        · exact absurd h.symm hse
        · exact h
      have hw2 : (registerStep v wa s).inters e = wa.inters e := by
        unfold registerStep
        cases wa.buildings s with
        | some bld => rfl
        | none =>
          show ((match wa.segments s with
            | some sg => wa.setSegment s { sg with observers := insertSet v sg.observers }
            | none =>
              match wa.inters s with
              | some i => wa.setInter s { i with observers := insertSet v i.observers }
              | none => wa).inters e) = wa.inters e
          cases wa.segments s with
          | some sg => rfl
          | none =>
            show ((match wa.inters s with
              | some i => wa.setInter s { i with observers := insertSet v i.observers }
              | none => wa).inters e) = wa.inters e
            cases wa.inters s with
            | none => rfl
            | some i =>
              show (if e = s then some _ else wa.inters e) = wa.inters e
              rw [if_neg (fun h => hse h.symm)]
      refine ih (registerStep v wa s) hmem2
        (registerStep_buildings_none v wa s e hb)
        (registerStep_segments v wa s e hs) i0 ?_
      rw [hw2]
      exact hw

/-- C8: a vehicle spawned with a path containing an intersection is registered
as that intersection's observer, and processing OnIntersectionDestroyed for it
despawns the vehicle in that same processing step: the vehicle does not
survive the tick. -/
theorem c8_observer_despawn (w : World) (path : List Entity) (v e : Entity)
    (live : List Entity) (inter : Intersection) (hmem : e ∈ path)
    (hb : w.buildings e = none) (hs : w.segments e = none) (hi : w.inters e = some inter) :
    v ∉ handle_intersection_destroyed (registerObservers w path v) e live := by
  obtain ⟨i1, h1, hv1⟩ := regFold_observer v e path w hmem hb hs inter hi
  unfold handle_intersection_destroyed
  rw [show registerObservers w path v = path.foldl (registerStep v) w from rfl, h1]
  show v ∉ live.filter (fun x => !(i1.observers.contains x))
  intro habs
  have hcon := List.of_mem_filter habs
  simp [hv1] at hcon

/-- Witness for C8: vehicle 77, registered along path [0, 9, 1], is not among
the live vehicles after OnIntersectionDestroyed(9) is processed. -/
theorem c8_observer_despawn_witness :
    (77 : Entity) ∉
      handle_intersection_destroyed (registerObservers w_c8wit [0, 9, 1] 77) 9 [77] :=
  c8_observer_despawn w_c8wit [0, 9, 1] 77 9 [77]
    (Intersection.new (GridArea.new (GridCell.new 0 4) (GridCell.new 1 5)))
    (by decide) rfl rfl rfl

end Overcast
